import Mathlib

/-!
# HyprKnot core — shallow embedding

A shallow embedding, in Lean 4, of the record codec, validator, zone access
guard and transactional record store of the HyprKnot repository
(`internal/knot/types.go`, `internal/knot/client.go`, and the two stale
duplicate copies of those files found in the repository).

Strings are modelled as `List Char`; Go's `uint32`/`uint16` become `Nat`
with explicit `< 2^32` / `< 2^16` bounds enforced exactly where the Go code
enforces them (`strconv.ParseUint` with a bit size).  The external `knotc`
process is modelled as a deterministic `Gateway` function from a command
(list of argument strings) to either output text or an error; every store
operation returns the exact sequence of commands it issued (its trace)
together with its result.
-/

set_option autoImplicit false

namespace HyprKnot

/-- Strings are lists of characters. -/
abbrev Chars := List Char

/-- Convert a Lean string literal to the `List Char` representation. -/
def lit (x : String) : Chars := x.toList

/-- Whitespace predicate, modelling `unicode.IsSpace` on the ASCII range
(space, tab, newline, vertical tab, form feed, carriage return), which is
the set relevant to `strings.Fields`/`strings.TrimSpace` on knotc output. -/
def isSpace (c : Char) : Bool :=
  c.toNat = 32 || c.toNat = 9 || c.toNat = 10 || c.toNat = 11 ||
  c.toNat = 12 || c.toNat = 13

/-- ASCII decimal digit predicate, as used by `strconv.ParseUint` base 10. -/
def isDigitCh (c : Char) : Bool :=
  48 ≤ c.toNat && c.toNat ≤ 57

/-- Accumulator-based splitter behind `fields` (Go `strings.Fields`):
`acc` holds the current token, reversed. -/
def fieldsAux : Chars → Chars → List Chars
  | [], acc => if acc.isEmpty then [] else [acc.reverse]
  | c :: cs, acc =>
    if isSpace c then
      if acc.isEmpty then fieldsAux cs [] else acc.reverse :: fieldsAux cs []
    else
      fieldsAux cs (c :: acc)

/-- Go `strings.Fields`: split around runs of whitespace; no empty tokens. -/
def fields (cs : Chars) : List Chars := fieldsAux cs []

/-- Go `strings.Join(parts, " ")`. -/
def joinSp : List Chars → Chars
  | [] => []
  | [t] => t
  | t :: ts => t ++ ' ' :: joinSp ts

/-- Go `strings.TrimSpace`: drop leading and trailing whitespace. -/
def trimSpace (cs : Chars) : Chars :=
  ((cs.dropWhile isSpace).reverse.dropWhile isSpace).reverse

/-- Go `strings.TrimSuffix`: remove one occurrence of a suffix when present. -/
def goTrimSuffix (cs suf : Chars) : Chars :=
  if suf.isSuffixOf cs then cs.take (cs.length - suf.length) else cs

/-- Go `strings.Trim(s, cutset)` for a single-character cutset:
remove all leading and trailing occurrences of `c`. -/
def goTrimChar (cs : Chars) (c : Char) : Chars :=
  ((cs.dropWhile (· == c)).reverse.dropWhile (· == c)).reverse

/-- Decimal value of a digit character. -/
def digitVal (c : Char) : Nat := c.toNat - 48

/-- The decimal digit character for `d < 10`. -/
def digitCh (d : Nat) : Char :=
  if d = 0 then '0' else if d = 1 then '1' else if d = 2 then '2'
  else if d = 3 then '3' else if d = 4 then '4' else if d = 5 then '5'
  else if d = 6 then '6' else if d = 7 then '7' else if d = 8 then '8'
  else '9'

/-- Fuel-driven canonical decimal printer behind `toDec`. -/
def toDecAux : Nat → Nat → Chars → Chars
  | 0, _, acc => acc
  | fuel + 1, n, acc =>
    let acc' := digitCh (n % 10) :: acc
    if n < 10 then acc' else toDecAux fuel (n / 10) acc'

/-- Go `strconv.FormatUint(n, 10)`: canonical decimal representation. -/
def toDec (n : Nat) : Chars := toDecAux (n + 1) n []

/-- Numeric value of a digit string (most significant digit first). -/
def parseVal (cs : Chars) : Nat :=
  cs.foldl (fun a c => 10 * a + digitVal c) 0

/-- Go `strconv.ParseUint(s, 10, bits)`: digits only, non-empty, value must
fit in `bits` bits; `none` models the error return. -/
def parseUint (cs : Chars) (bits : Nat) : Option Nat :=
  if cs ≠ [] ∧ cs.all isDigitCh then
    if parseVal cs < 2 ^ bits then some (parseVal cs) else none
  else none

/-! ## Record data model (`internal/knot/types.go`) -/

/-- Go struct `DNSRecord`.  `rtype` mirrors the Go field `Type`
(a `RecordType`, which is a plain string in the source). -/
structure DNSRecord where
  name : Chars
  rtype : Chars
  ttl : Nat
  data : Chars
  priority : Option Nat
  deriving DecidableEq, Repr

/-- Go struct `UpdateRecordRequest`: the optional update delta. -/
structure UpdateRecordRequest where
  ttl : Option Nat
  data : Option Chars
  priority : Option Nat
  deriving DecidableEq, Repr

/-- `ValidRecordTypes` from `types.go` (SOA is deliberately excluded). -/
def validRecordTypes : List Chars :=
  [lit "A", lit "AAAA", lit "PTR", lit "CNAME", lit "MX", lit "TXT", lit "NS"]

/-- ASCII uppercase map, modelling `strings.ToUpper` on the ASCII range. -/
def goToUpper (cs : Chars) : Chars :=
  cs.map (fun c =>
    if 97 ≤ c.toNat ∧ c.toNat ≤ 122 then Char.ofNat (c.toNat - 32) else c)

/-- `IsValidRecordType` from `types.go`: uppercase, then membership in the
valid-type list. -/
def isValidRecordType (rt : Chars) : Bool :=
  validRecordTypes.any (fun v => goToUpper rt == v)

/-! ## Record codec, primary copy (`internal/knot/types.go`) -/

/-- `(*DNSRecord).ToKnotFormat` from `internal/knot/types.go`:
`name ttl type [priority] data`, space-joined (no class token). -/
def toKnotFormat (r : DNSRecord) : Chars :=
  let base := [r.name, toDec r.ttl, r.rtype]
  let base :=
    if r.rtype = lit "MX" then
      match r.priority with
      | some p => base ++ [toDec p]
      | none => base
    else base
  joinSp (base ++ [r.data])

/-- `ParseKnotRecord` from `internal/knot/types.go`: split on whitespace,
require 4 tokens, read name/ttl/type positionally; MX additionally reads a
numeric 16-bit priority token and takes the single next token as data;
every other type joins all remaining tokens as data. -/
def parseKnotRecord (line : Chars) : Except Chars DNSRecord :=
  let parts := fields line
  if parts.length < 4 then
    .error (lit "invalid record format: " ++ line)
  else
    match parseUint (parts.getD 1 []) 32 with
    | none => .error (lit "invalid TTL: " ++ parts.getD 1 [])
    | some ttl =>
      if parts.getD 2 [] = lit "MX" then
        if parts.length < 5 then
          .error (lit "invalid MX record format: " ++ line)
        else
          match parseUint (parts.getD 3 []) 16 with
          | none => .error (lit "invalid MX priority: " ++ parts.getD 3 [])
          | some p =>
            .ok { name := parts.getD 0 []
                  rtype := parts.getD 2 []
                  ttl := ttl
                  data := parts.getD 4 []
                  priority := some p }
      else
        .ok { name := parts.getD 0 []
              rtype := parts.getD 2 []
              ttl := ttl
              data := joinSp (parts.drop 3)
              priority := none }

/-! ## Record codec, duplicate copy (`src/unnamed/part_001`) -/

/-- `(*DNSRecord).ToKnotFormat` from the duplicate copy `src/unnamed/part_001`:
identical to the primary copy except that a literal class token `IN` is
inserted between the TTL and the type. -/
def toKnotFormatB (r : DNSRecord) : Chars :=
  let base := [r.name, toDec r.ttl, lit "IN", r.rtype]
  let base :=
    if r.rtype = lit "MX" then
      match r.priority with
      | some p => base ++ [toDec p]
      | none => base
    else base
  joinSp (base ++ [r.data])

/-- The line preprocessing of `ParseKnotRecord` in `src/unnamed/part_001`:
trim, then strip a leading bracketed zone scope `[zone] ` when present and
the closing bracket is not the last character. -/
def preprocB (line : Chars) : Chars :=
  let l := trimSpace line
  if l.head? = some '[' ∧ l.contains ']' then
    let bracketEnd := l.findIdx (· == ']')
    if bracketEnd < l.length - 1 then trimSpace (l.drop (bracketEnd + 1))
    else l
  else l

/-- The recognized class tokens of `src/unnamed/part_001`. -/
def classTokens : List Chars := [lit "IN", lit "CH", lit "HS"]

/-- The (type token, data start index) resolution of `src/unnamed/part_001`:
when at least 5 tokens are present and token 3 is a recognized class token,
the type/data window shifts right by one. -/
def typeDataStartB (parts : List Chars) : Chars × Nat :=
  if 5 ≤ parts.length ∧ parts.getD 2 [] ∈ classTokens then
    (parts.getD 3 [], 4)
  else
    (parts.getD 2 [], 3)

/-- `ParseKnotRecord` from the duplicate copy `src/unnamed/part_001`:
strips a bracketed zone-scope, skips a recognized class token, and for MX
joins all tokens after the priority as data (the primary copy takes only
one token there). -/
def parseKnotRecordB (line : Chars) : Except Chars DNSRecord :=
  let l := preprocB line
  let parts := fields l
  if parts.length < 4 then
    .error (lit "invalid record format: " ++ l)
  else
    let td := typeDataStartB parts
    let recordType := td.1
    let dataStart := td.2
    match parseUint (parts.getD 1 []) 32 with
    | none => .error (lit "invalid TTL: " ++ parts.getD 1 [])
    | some ttl =>
      if recordType = lit "MX" then
        if parts.length < dataStart + 2 then
          .error (lit "invalid MX record format: " ++ l)
        else
          match parseUint (parts.getD dataStart []) 16 with
          | none => .error (lit "invalid MX priority: " ++ parts.getD dataStart [])
          | some p =>
            .ok { name := parts.getD 0 []
                  rtype := recordType
                  ttl := ttl
                  data := joinSp (parts.drop (dataStart + 1))
                  priority := some p }
      else
        .ok { name := parts.getD 0 []
              rtype := recordType
              ttl := ttl
              data := if dataStart < parts.length then joinSp (parts.drop dataStart) else []
              priority := none }

/-! ## Validator (`internal/knot/types.go`) -/

/-- Dotted-quad IPv4 acceptor.  Modelled from the Go standard library:
`net.ParseIP(s) != nil && net.ParseIP(s).To4() != nil` for the dotted
decimal form (four fields, 0–255, no leading zeros); v4-mapped IPv6
spellings are not modelled.  No theorem below depends on the exact
boundary behaviour of this predicate. -/
def ipIsV4 (cs : Chars) : Bool :=
  let fieldOk : Chars → Bool := fun f =>
    f ≠ [] && f.length ≤ 3 && f.all isDigitCh && parseVal f ≤ 255 &&
    (f.headD '0' ≠ '0' || f.length = 1)
  let parts := cs.splitOn '.'
  parts.length = 4 && parts.all fieldOk

/-- IPv6 acceptor.  Modelled from the Go standard library:
`net.ParseIP(s) != nil && net.ParseIP(s).To4() == nil`.  Simplified to
"contains a colon and only hex digits, colons and dots"; no theorem below
depends on the exact boundary behaviour of this predicate. -/
def ipIsV6 (cs : Chars) : Bool :=
  cs.contains ':' &&
  cs.all (fun c => isDigitCh c || (97 ≤ c.toNat && c.toNat ≤ 102) ||
    (65 ≤ c.toNat && c.toNat ≤ 70) || c = ':' || c = '.')

/-- `(*DNSRecord).validateData` from `internal/knot/types.go`: the per-type
switch over the exact upper-case type constants.  Returns the (possibly
data-normalized) record; types matching no case fall through unchanged. -/
def validateData (r : DNSRecord) : Except Chars DNSRecord :=
  if r.rtype = lit "A" then
    if ipIsV4 r.data then .ok r
    else .error (lit "invalid IPv4 address: " ++ r.data)
  else if r.rtype = lit "AAAA" then
    if ipIsV6 r.data then .ok r
    else .error (lit "invalid IPv6 address: " ++ r.data)
  else if r.rtype = lit "PTR" ∨ r.rtype = lit "CNAME" ∨ r.rtype = lit "NS" then
    if r.data = [] then
      .error (lit "data cannot be empty for " ++ r.rtype ++ lit " record")
    else if (lit ".").isSuffixOf r.data then .ok r
    else .ok { r with data := r.data ++ lit "." }
  else if r.rtype = lit "MX" then
    match r.priority with
    | none => .error (lit "priority is required for MX record")
    | some _ =>
      if (lit ".").isSuffixOf r.data then .ok r
      else .ok { r with data := r.data ++ lit "." }
  else if r.rtype = lit "TXT" then
    if r.data = [] then
      .error (lit "data cannot be empty for TXT record")
    else if (['"'] : Chars).isPrefixOf r.data ∧ (['"'] : Chars).isSuffixOf r.data then
      .ok r
    else
      .ok { r with data := '"' :: (goTrimChar r.data '"' ++ ['"']) }
  else .ok r

/-- `(*DNSRecord).Validate` from `internal/knot/types.go`: non-empty name,
valid (case-insensitive) type, TTL defaulted to 300 when zero, then the
per-type data rules.  The Go method mutates in place; the model returns
the normalized record. -/
def validate (r : DNSRecord) : Except Chars DNSRecord :=
  if r.name = [] then .error (lit "record name cannot be empty")
  else if ¬ isValidRecordType r.rtype then
    .error (lit "invalid record type: " ++ r.rtype)
  else
    match validateData { r with ttl := if r.ttl = 0 then 300 else r.ttl } with
    | .error e => .error (lit "invalid record data: " ++ e)
    | .ok r2 => .ok r2

/-! ## Client and transactional record store (`internal/knot/client.go`)

The external `knotc` binary is modelled as a deterministic `Gateway`
function from the full command-argument list to either its combined output
or an error (error text, output text).  Each store operation returns the
exact list of commands it issued, in order, together with its result. -/

/-- The configuration of `Client` that the modelled operations read
(`knotcPath` and the logger play no role in control flow). -/
structure Client where
  socketPath : Option Chars
  allowedZones : List Chars

/-- One external `knotc` invocation: command arguments to output or error. -/
structure Gateway where
  run : List Chars → Except (Chars × Chars) Chars

/-- The sequence of commands issued by an operation. -/
abbrev Trace := List (List Chars)

/-- The `-s <socket>` argument pair prepended by `executeKnotc`. -/
def sockArgs (c : Client) : List Chars :=
  match c.socketPath with
  | some sp => [lit "-s", sp]
  | none => []

/-- `executeKnotc` from `client.go`: build the full command, run it, trim
its output; on failure wrap the error and the combined output. -/
def execCmd (c : Client) (g : Gateway) (args : List Chars) :
    List Chars × Except Chars Chars :=
  match g.run (sockArgs c ++ args) with
  | .ok output => (sockArgs c ++ args, .ok (trimSpace output))
  | .error eo =>
    (sockArgs c ++ args,
     .error (lit "knotc command failed: " ++ eo.1 ++ lit ", output: " ++ eo.2))

/-- `normalizeZoneName` from `client.go`: ensure a trailing dot. -/
def normalizeZoneName (zone : Chars) : Chars :=
  if (lit ".").isSuffixOf zone then zone else zone ++ lit "."

/-- `(*Client).IsZoneAllowed` from `internal/knot/client.go`: empty list
allows everything; otherwise compare the normalized zone against each
normalized entry for equality or a `"." + entry` suffix match. -/
def isZoneAllowed (c : Client) (zone : Chars) : Bool :=
  if c.allowedZones.isEmpty then true
  else
    c.allowedZones.any (fun az =>
      normalizeZoneName zone == normalizeZoneName az ||
      ('.' :: normalizeZoneName az).isSuffixOf (normalizeZoneName zone))

/-- `(*Client).IsZoneAllowed` from the duplicate copy `src/unnamed/part_002`:
same comparison but with no normalization of either side. -/
def isZoneAllowedB (c : Client) (zone : Chars) : Bool :=
  if c.allowedZones.isEmpty then true
  else
    c.allowedZones.any (fun az => zone == az || ('.' :: az).isSuffixOf zone)

/-- Line splitter behind `splitLines` (models `bufio.Scanner` over the
command output; carriage returns are later removed by `trimSpace`). -/
def splitLinesAux : Chars → Chars → List Chars
  | [], acc => [acc.reverse]
  | c :: cs, acc =>
    if c = '\n' then acc.reverse :: splitLinesAux cs []
    else splitLinesAux cs (c :: acc)

/-- Split output text into lines at newline characters. -/
def splitLines (cs : Chars) : List Chars := splitLinesAux cs []

/-- `(*Client).GetRecords` from `client.go`: guard the zone, issue
`zone-read`, parse each non-blank non-comment line, skipping lines that
fail to parse. -/
def getRecords (c : Client) (g : Gateway) (zone : Chars) :
    Trace × Except Chars (List DNSRecord) :=
  if ¬ isZoneAllowed c zone then ([], .error (lit "zone not allowed: " ++ zone))
  else
    match execCmd c g [lit "zone-read", normalizeZoneName zone] with
    | (cmd, .error e) =>
      ([cmd], .error (lit "failed to read zone " ++ zone ++ lit ": " ++ e))
    | (cmd, .ok output) =>
      ([cmd], .ok ((splitLines output).foldl (fun acc l =>
        if trimSpace l = [] ∨ (trimSpace l).head? = some ';' then acc
        else
          match parseKnotRecord (trimSpace l) with
          | .error _ => acc
          | .ok r => acc ++ [r]) []))

/-- `(*Client).GetRecord` from `client.go`: list the zone and linearly scan
for the first exact `(name, type)` match. -/
def getRecord (c : Client) (g : Gateway) (zone name rt : Chars) :
    Trace × Except Chars DNSRecord :=
  if ¬ isZoneAllowed c zone then ([], .error (lit "zone not allowed: " ++ zone))
  else
    match getRecords c g zone with
    | (t, .error e) => (t, .error e)
    | (t, .ok records) =>
      match records.find? (fun r => r.name == name && r.rtype == rt) with
      | some r => (t, .ok r)
      | none =>
        (t, .error (lit "record not found: " ++ name ++ lit " " ++ rt ++
          lit " in zone " ++ zone))

/-- The relative-name computation shared by `CreateRecord` and
`UpdateRecord`: strip the zone suffix from an absolute owner name. -/
def mkRecordName (name nz : Chars) : Chars :=
  if ('.' :: nz).isSuffixOf name then goTrimSuffix name ('.' :: nz)
  else if nz.isSuffixOf name then goTrimSuffix (goTrimSuffix name nz) (lit ".")
  else name

/-- The `zone-set` argument list built by `CreateRecord`/`UpdateRecord`:
`zone-set <zone> <owner> <ttl> <type> [<priority>] <data>`. -/
def setArgsFor (nz : Chars) (r : DNSRecord) : List Chars :=
  let args := [lit "zone-set", nz, mkRecordName r.name nz, toDec r.ttl, r.rtype]
  let args :=
    if r.rtype = lit "MX" then
      match r.priority with
      | some p => args ++ [toDec p]
      | none => args
    else args
  args ++ [r.data]

/-- `(*Client).CreateRecord` from `client.go`: guard, validate, probe for an
identical existing record (idempotent no-op), else begin → set → commit,
aborting when the set step fails (the abort result is discarded). -/
def createRecord (c : Client) (g : Gateway) (zone : Chars) (record : DNSRecord) :
    Trace × Except Chars Unit :=
  if ¬ isZoneAllowed c zone then ([], .error (lit "zone not allowed: " ++ zone))
  else
    match validate record with
    | .error e => ([], .error (lit "invalid record: " ++ e))
    | .ok rv =>
      let probe := getRecord c g zone rv.name rv.rtype
      let identical : Bool :=
        match probe.2 with
        | .ok ex =>
          ex.ttl == rv.ttl && ex.data == rv.data &&
          (match ex.priority, rv.priority with
           | none, none => true
           | some a, some b => a == b
           | _, _ => false)
        | .error _ => false
      if identical then (probe.1, .ok ())
      else
        let nz := normalizeZoneName zone
        match execCmd c g [lit "zone-begin", nz] with
        | (b, .error e) =>
          (probe.1 ++ [b],
           .error (lit "failed to begin transaction for zone " ++ zone ++ lit ": " ++ e))
        | (b, .ok _) =>
          match execCmd c g (setArgsFor nz rv) with
          | (s, .error e) =>
            let ab := execCmd c g [lit "zone-abort", nz]
            (probe.1 ++ [b, s, ab.1],
             .error (lit "failed to add record to zone " ++ zone ++ lit ": " ++ e))
          | (s, .ok _) =>
            match execCmd c g [lit "zone-commit", nz] with
            | (k, .error e) =>
              (probe.1 ++ [b, s, k],
               .error (lit "failed to commit transaction for zone " ++ zone ++ lit ": " ++ e))
            | (k, .ok _) => (probe.1 ++ [b, s, k], .ok ())

/-- The delta application of `UpdateRecord`: only present fields overwrite. -/
def applyDelta (ex : DNSRecord) (u : UpdateRecordRequest) : DNSRecord :=
  let r1 := match u.ttl with | some t => { ex with ttl := t } | none => ex
  let r2 := match u.data with | some d => { r1 with data := d } | none => r1
  match u.priority with | some p => { r2 with priority := some p } | none => r2

/-- `(*Client).UpdateRecord` from `client.go`: fetch, capture the exact
formatted original, merge the delta, re-validate, then
begin → unset-by-exact-original → set-merged → commit, aborting when the
unset or set step fails. -/
def updateRecord (c : Client) (g : Gateway) (zone name rt : Chars)
    (updates : UpdateRecordRequest) : Trace × Except Chars Unit :=
  if ¬ isZoneAllowed c zone then ([], .error (lit "zone not allowed: " ++ zone))
  else
    match getRecord c g zone name rt with
    | (t, .error e) => (t, .error (lit "record not found: " ++ e))
    | (t, .ok ex) =>
      let originalRecordStr := toKnotFormat ex
      match validate (applyDelta ex updates) with
      | .error e => (t, .error (lit "invalid updated record: " ++ e))
      | .ok rv =>
        let nz := normalizeZoneName zone
        match execCmd c g [lit "zone-begin", nz] with
        | (b, .error e) =>
          (t ++ [b],
           .error (lit "failed to begin transaction for zone " ++ zone ++ lit ": " ++ e))
        | (b, .ok _) =>
          match execCmd c g [lit "zone-unset", nz, originalRecordStr] with
          | (u0, .error e) =>
            let ab := execCmd c g [lit "zone-abort", nz]
            (t ++ [b, u0, ab.1],
             .error (lit "failed to remove old record from zone " ++ zone ++ lit ": " ++ e))
          | (u0, .ok _) =>
            match execCmd c g (setArgsFor nz rv) with
            | (s, .error e) =>
              let ab := execCmd c g [lit "zone-abort", nz]
              (t ++ [b, u0, s, ab.1],
               .error (lit "failed to add updated record to zone " ++ zone ++ lit ": " ++ e))
            | (s, .ok _) =>
              match execCmd c g [lit "zone-commit", nz] with
              | (k, .error e) =>
                (t ++ [b, u0, s, k],
                 .error (lit "failed to commit transaction for zone " ++ zone ++ lit ": " ++ e))
              | (k, .ok _) => (t ++ [b, u0, s, k], .ok ())

/-- `(*Client).DeleteRecord` from `client.go`: existence check, then
begin → unset-by-name-and-type → commit on the **raw** zone string,
aborting when the unset step fails. -/
def deleteRecord (c : Client) (g : Gateway) (zone name rt : Chars) :
    Trace × Except Chars Unit :=
  if ¬ isZoneAllowed c zone then ([], .error (lit "zone not allowed: " ++ zone))
  else
    match getRecord c g zone name rt with
    | (t, .error e) => (t, .error (lit "record not found: " ++ e))
    | (t, .ok _) =>
      match execCmd c g [lit "zone-begin", zone] with
      | (b, .error e) =>
        (t ++ [b],
         .error (lit "failed to begin transaction for zone " ++ zone ++ lit ": " ++ e))
      | (b, .ok _) =>
        let recordStr := name ++ ' ' :: rt
        match execCmd c g [lit "zone-unset", zone, recordStr] with
        | (u0, .error e) =>
          let ab := execCmd c g [lit "zone-abort", zone]
          (t ++ [b, u0, ab.1],
           .error (lit "failed to remove record from zone " ++ zone ++ lit ": " ++ e))
        | (u0, .ok _) =>
          match execCmd c g [lit "zone-commit", zone] with
          | (k, .error e) =>
            (t ++ [b, u0, k],
             .error (lit "failed to commit transaction for zone " ++ zone ++ lit ": " ++ e))
          | (k, .ok _) => (t ++ [b, u0, k], .ok ())

/-! ## Auxiliary notions used only in theorem statements -/

/-- The knotc subcommand of an issued command (the first argument after the
socket-path pair, if any). -/
def subcmdOf (c : Client) (cmd : List Chars) : Option Chars :=
  (cmd.drop (sockArgs c).length).head?

/-- Whether an issued command is one of the mutating control-plane
subcommands. -/
def isMutCmd (c : Client) (cmd : List Chars) : Bool :=
  match subcmdOf c cmd with
  | some s =>
    s == lit "zone-begin" || s == lit "zone-set" ||
    s == lit "zone-commit" || s == lit "zone-unset"
  | none => false

/-- Whether an issued command is a `zone-abort`. -/
def isAbortCmd (c : Client) (cmd : List Chars) : Bool :=
  subcmdOf c cmd == some (lit "zone-abort")

/-- Two parse results agree when they are the same record or both errors. -/
def agreeResult (x y : Except Chars DNSRecord) : Prop :=
  (∃ r, x = .ok r ∧ y = .ok r) ∨ ((∃ e, x = .error e) ∧ (∃ e, y = .error e))

/-- A whitespace-free, non-empty token. -/
def cleanTok (t : Chars) : Prop := t ≠ [] ∧ ∀ c ∈ t, isSpace c = false

/-! ## Helper lemmas: tokenization -/

theorem fieldsAux_notSpace (c : Char) (cs acc : Chars) (h : isSpace c = false) :
    fieldsAux (c :: cs) acc = fieldsAux cs (c :: acc) := by
  simp [fieldsAux, h]

theorem fieldsAux_space (c : Char) (cs acc : Chars) (h : isSpace c = true) :
    fieldsAux (c :: cs) acc =
      if acc.isEmpty then fieldsAux cs [] else acc.reverse :: fieldsAux cs [] := by
  simp [fieldsAux, h]

theorem fieldsAux_clean_token (t rest acc : Chars)
    (h : ∀ c ∈ t, isSpace c = false) :
    fieldsAux (t ++ rest) acc = fieldsAux rest (t.reverse ++ acc) := by
  induction t generalizing acc with
  | nil => simp
  | cons c t ih =>
    have hc : isSpace c = false := h c (List.mem_cons_self ..)
    rw [List.cons_append, fieldsAux_notSpace _ _ _ hc,
      ih _ (fun x hx => h x (List.mem_cons_of_mem _ hx))]
    simp

theorem joinSp_cons (t : Chars) (ts : List Chars) (h : ts ≠ []) :
    joinSp (t :: ts) = t ++ ' ' :: joinSp ts := by
  cases ts with
  | nil => exact absurd rfl h
  | cons u ts => rfl

theorem fields_joinSp (ts : List Chars) (h : ∀ t ∈ ts, cleanTok t) :
    fields (joinSp ts) = ts := by
  induction ts with
  | nil => rfl
  | cons t ts ih =>
    obtain ⟨hne, hcl⟩ := h t (List.mem_cons_self ..)
    cases ts with
    | nil =>
      show fieldsAux (joinSp [t]) [] = [t]
      rw [show joinSp [t] = t ++ [] by simp [joinSp],
        fieldsAux_clean_token t [] [] hcl]
      simp [fieldsAux, hne]
    | cons u ts2 =>
      rw [joinSp_cons t (u :: ts2) (by simp)]
      show fieldsAux (t ++ ' ' :: joinSp (u :: ts2)) [] = t :: u :: ts2
      rw [fieldsAux_clean_token t _ [] hcl,
        fieldsAux_space ' ' _ _ (by decide)]
      have : (t.reverse ++ []).isEmpty = false := by
        simp [List.isEmpty_iff, hne]
      rw [this]
      simp only [List.append_nil, List.reverse_reverse, if_false]
      exact congrArg (t :: ·) (ih (fun x hx => h x (List.mem_cons_of_mem _ hx)))

theorem fieldsAux_clean (cs : Chars) :
    ∀ acc : Chars, (∀ c ∈ acc, isSpace c = false) →
      ∀ t ∈ fieldsAux cs acc, cleanTok t := by
  induction cs with
  | nil =>
    intro acc hacc t ht
    simp only [fieldsAux] at ht
    split at ht
    · simp at ht
    · rename_i hne
      simp only [List.mem_singleton] at ht
      subst ht
      refine ⟨by simpa [List.isEmpty_iff] using hne, ?_⟩
      intro c hc
      exact hacc c (by simpa using hc)
  | cons c cs ih =>
    intro acc hacc t ht
    by_cases hs : isSpace c = true
    · rw [fieldsAux_space c cs acc hs] at ht
      split at ht
      · exact ih [] (by simp) t ht
      · rename_i hne
        rcases List.mem_cons.mp ht with h | h
        · subst h
          refine ⟨by simpa [List.isEmpty_iff] using hne, ?_⟩
          intro x hx
          exact hacc x (by simpa using hx)
        · exact ih [] (by simp) t h
    · rw [fieldsAux_notSpace c cs acc (by simpa using hs)] at ht
      refine ih (c :: acc) ?_ t ht
      intro x hx
      rcases List.mem_cons.mp hx with h | h
      · subst h; simpa using hs
      · exact hacc x h

theorem fields_clean (cs : Chars) : ∀ t ∈ fields cs, cleanTok t :=
  fieldsAux_clean cs [] (by simp)

theorem joinSp_append_joinSp (l1 l2 : List Chars) (h : l2 ≠ []) :
    joinSp (l1 ++ [joinSp l2]) = joinSp (l1 ++ l2) := by
  induction l1 with
  | nil => simp [joinSp]
  | cons a l1 ih =>
    rw [List.cons_append, List.cons_append,
      joinSp_cons a _ (by simp), joinSp_cons a _ (by simp [h]), ih]

theorem getD_mem_of_lt {α : Type} (l : List α) (i : Nat) (d : α)
    (h : i < l.length) : l.getD i d ∈ l := by
  rw [List.getD_eq_getElem l d h]
  exact List.getElem_mem h

/-! ## Helper lemmas: decimal printing and parsing -/

theorem isDigitCh_not_space (c : Char) (h : isDigitCh c = true) :
    isSpace c = false := by
  simp only [isDigitCh, Bool.and_eq_true, decide_eq_true_eq] at h
  simp only [isSpace, Bool.or_eq_false_iff, decide_eq_false_iff_not]
  omega

theorem digitCh_isDigit (d : Nat) : isDigitCh (digitCh d) = true := by
  unfold digitCh
  split_ifs <;> decide

theorem digitVal_digitCh (d : Nat) (h : d < 10) :
    digitVal (digitCh d) = d := by
  interval_cases d <;> decide

theorem toDecAux_acc (fuel n : Nat) :
    ∀ acc : Chars, toDecAux fuel n acc = toDecAux fuel n [] ++ acc := by
  induction fuel generalizing n with
  | zero => intro acc; rfl
  | succ fuel ih =>
    intro acc
    unfold toDecAux
    by_cases h : n < 10
    · simp [h]
    · simp only [h, if_false]
      rw [ih (n / 10) (digitCh (n % 10) :: acc), ih (n / 10) [digitCh (n % 10)]]
      simp

theorem toDecAux_ne_nil (fuel n : Nat) (acc : Chars) :
    toDecAux (fuel + 1) n acc ≠ [] := by
  unfold toDecAux
  by_cases h : n < 10
  · simp [h]
  · simp only [h, if_false]
    rw [toDecAux_acc]
    simp

theorem toDec_ne_nil (n : Nat) : toDec n ≠ [] := toDecAux_ne_nil n n []

theorem toDecAux_digits (fuel : Nat) :
    ∀ (n : Nat) (acc : Chars), (∀ c ∈ acc, isDigitCh c = true) →
      ∀ c ∈ toDecAux fuel n acc, isDigitCh c = true := by
  induction fuel with
  | zero => intro n acc hacc c hc; exact hacc c hc
  | succ fuel ih =>
    intro n acc hacc c hc
    unfold toDecAux at hc
    have hstep : ∀ x ∈ digitCh (n % 10) :: acc, isDigitCh x = true := by
      intro x hx
      rcases List.mem_cons.mp hx with h | h
      · subst h; exact digitCh_isDigit _
      · exact hacc x h
    by_cases h : n < 10
    · simp only [h, if_true] at hc
      exact hstep c hc
    · simp only [h, if_false] at hc
      exact ih (n / 10) _ hstep c hc

theorem toDec_digits (n : Nat) : ∀ c ∈ toDec n, isDigitCh c = true :=
  toDecAux_digits (n + 1) n [] (by simp)

theorem toDec_cleanTok (n : Nat) : cleanTok (toDec n) :=
  ⟨toDec_ne_nil n, fun c hc => isDigitCh_not_space c (toDec_digits n c hc)⟩

theorem parseVal_append_digit (l : Chars) (c : Char) :
    parseVal (l ++ [c]) = 10 * parseVal l + digitVal c := by
  simp [parseVal, List.foldl_append]

theorem parseVal_toDecAux (fuel : Nat) :
    ∀ n : Nat, n < 10 ^ fuel → parseVal (toDecAux fuel n []) = n := by
  induction fuel with
  | zero =>
    intro n hn
    interval_cases n
    rfl
  | succ fuel ih =>
    intro n hn
    unfold toDecAux
    by_cases h : n < 10
    · simp only [h, if_true]
      show parseVal ([] ++ [digitCh (n % 10)]) = n
      rw [parseVal_append_digit]
      have : n % 10 = n := Nat.mod_eq_of_lt h
      rw [this, digitVal_digitCh n h]
      simp [parseVal]
    · simp only [h, if_false]
      rw [toDecAux_acc]
      rw [parseVal_append_digit]
      have hdiv : n / 10 < 10 ^ fuel := by
        rw [Nat.div_lt_iff_lt_mul (by norm_num)]
        calc n < 10 ^ (fuel + 1) := hn
        _ = 10 ^ fuel * 10 := by ring
      rw [ih (n / 10) hdiv, digitVal_digitCh _ (Nat.mod_lt n (by norm_num))]
      omega

theorem parseVal_toDec (n : Nat) : parseVal (toDec n) = n :=
  parseVal_toDecAux (n + 1) n
    (lt_of_lt_of_le (Nat.lt_pow_self (by norm_num) n)
      (Nat.pow_le_pow_right (by norm_num) (Nat.le_succ n)))

theorem parseUint_toDec (n bits : Nat) (h : n < 2 ^ bits) :
    parseUint (toDec n) bits = some n := by
  unfold parseUint
  rw [if_pos ⟨toDec_ne_nil n, by
    rw [List.all_eq_true]
    intro c hc
    exact toDec_digits n c hc⟩]
  rw [parseVal_toDec, if_pos h]

theorem parseUint_some_lt (cs : Chars) (bits v : Nat)
    (h : parseUint cs bits = some v) : v < 2 ^ bits := by
  unfold parseUint at h
  split at h
  · split at h
    · rename_i hv
      cases h
      exact hv
    · cases h
  · cases h

/-! ## Helper lemmas: the primary parser -/

theorem parseKnotRecord_eval (l : Chars) (t : Nat)
    (h4 : ¬ (fields l).length < 4)
    (ht : parseUint ((fields l).getD 1 []) 32 = some t)
    (hm : ¬ (fields l).getD 2 [] = lit "MX") :
    parseKnotRecord l =
      .ok ⟨(fields l).getD 0 [], (fields l).getD 2 [], t,
        joinSp ((fields l).drop 3), none⟩ := by
  simp only [parseKnotRecord, if_neg h4, ht, if_neg hm]

theorem parseKnotRecord_ok_nonMX (line : Chars) (r : DNSRecord)
    (hp : parseKnotRecord line = .ok r) (hmx : r.rtype ≠ lit "MX") :
    ¬ (fields line).length < 4 ∧
    parseUint ((fields line).getD 1 []) 32 = some r.ttl ∧
    ¬ (fields line).getD 2 [] = lit "MX" ∧
    r = ⟨(fields line).getD 0 [], (fields line).getD 2 [], r.ttl,
      joinSp ((fields line).drop 3), none⟩ := by
  simp only [parseKnotRecord] at hp
  split at hp
  · simp at hp
  · rename_i h4
    split at hp
    · simp at hp
    · rename_i t heq
      split at hp
      · rename_i hMX
        split at hp
        · simp at hp
        · split at hp
          · simp at hp
          · simp only [Except.ok.injEq] at hp
            exact absurd (by rw [← hp]; exact hMX) hmx
      · rename_i hMXne
        simp only [Except.ok.injEq] at hp
        subst hp
        exact ⟨h4, heq, hMXne, rfl⟩

/-- C1 (confirmed): for every line on which `ParseKnotRecord` succeeds with
a non-MX record, parsing the line produced by `ToKnotFormat` yields a
record equal to the original in every field (name, ttl, type, data,
priority) — `Format(Parse(line))` is semantically equal to the record
described by the original line, whether or not the original line carried a
literal class token in position 3 or a bracketed prefix (such lines parse
with those tokens folded into the positional fields and still round-trip). -/
theorem parse_format_roundtrip_c1 : ∀ (line : Chars) (r : DNSRecord),
    parseKnotRecord line = .ok r → r.rtype ≠ lit "MX" →
    parseKnotRecord (toKnotFormat r) = .ok r := by
  intro line r hp hmx
  obtain ⟨h4, httl, hm2, hr⟩ := parseKnotRecord_ok_nonMX line r hp hmx
  obtain ⟨nm, ty, tt, da, pr⟩ := r
  simp only [DNSRecord.mk.injEq] at hr
  obtain ⟨hnm, hty, -, hda, hpr⟩ := hr
  subst hnm; subst hty; subst hda; subst hpr
  simp only at httl hm2 hmx ⊢
  have httl32 : tt < 2 ^ 32 := parseUint_some_lt _ _ _ httl
  have hdropne : (fields line).drop 3 ≠ [] := by
    intro hnil
    have := congrArg List.length hnil
    simp only [List.length_drop, List.length_nil] at this
    omega
  have hfmt : toKnotFormat
      ⟨(fields line).getD 0 [], (fields line).getD 2 [], tt,
        joinSp ((fields line).drop 3), none⟩ =
      joinSp ([(fields line).getD 0 [], toDec tt, (fields line).getD 2 []] ++
        (fields line).drop 3) := by
    simp only [toKnotFormat, hm2, if_false, if_neg hm2]
    exact joinSp_append_joinSp _ _ hdropne
  rw [hfmt]
  have hclean : ∀ t ∈ ([(fields line).getD 0 [], toDec tt,
      (fields line).getD 2 []] ++ (fields line).drop 3), cleanTok t := by
    intro t ht
    rcases List.mem_append.mp ht with h | h
    · rcases List.mem_cons.mp h with h | h
      · subst h
        exact fields_clean line _ (getD_mem_of_lt _ _ _ (by omega))
      · rcases List.mem_cons.mp h with h | h
        · subst h
          exact toDec_cleanTok tt
        · rcases List.mem_cons.mp h with h | h
          · subst h
            exact fields_clean line _ (getD_mem_of_lt _ _ _ (by omega))
          · simp at h
    · exact fields_clean line t (List.drop_subset 3 (fields line) h)
  have hfields : fields (joinSp ([(fields line).getD 0 [], toDec tt,
      (fields line).getD 2 []] ++ (fields line).drop 3)) =
      [(fields line).getD 0 [], toDec tt, (fields line).getD 2 []] ++
        (fields line).drop 3 :=
    fields_joinSp _ hclean
  have hlen : ¬ ([(fields line).getD 0 [], toDec tt,
      (fields line).getD 2 []] ++ (fields line).drop 3).length < 4 := by
    simp only [List.length_append, List.length_cons, List.length_nil,
      List.length_drop]
    omega
  rw [parseKnotRecord_eval _ tt
    (by rw [hfields]; exact hlen)
    (by rw [hfields]; simpa using parseUint_toDec tt 32 httl32)
    (by rw [hfields]; simpa using hm2)]
  rw [hfields]
  simp [List.getD]

/-- Witness for C1 at the line `www.example.com. 300 A 192.0.2.1`. -/
theorem parse_format_roundtrip_c1_witness :
    parseKnotRecord (toKnotFormat
      ⟨lit "www.example.com.", lit "A", 300, lit "192.0.2.1", none⟩) =
    .ok ⟨lit "www.example.com.", lit "A", 300, lit "192.0.2.1", none⟩ :=
  parse_format_roundtrip_c1 (lit "www.example.com. 300 A 192.0.2.1")
    ⟨lit "www.example.com.", lit "A", 300, lit "192.0.2.1", none⟩
    (by rfl) (by decide)

/-! ## Helper lemmas: the validator -/

theorem isSuffixOf_append_last (d : Chars) (c : Char) :
    ([c] : Chars).isSuffixOf (d ++ [c]) = true := by
  rw [List.isSuffixOf_iff_suffix]
  exact ⟨d, rfl⟩

theorem isPrefixOf_cons_self (c : Char) (l : Chars) :
    ([c] : Chars).isPrefixOf (c :: l) = true := by
  rw [List.isPrefixOf_iff_prefix]
  exact ⟨l, rfl⟩

theorem validateData_shape (r r' : DNSRecord) (h : validateData r = .ok r') :
    r' = { r with data := r'.data } := by
  unfold validateData at h
  split_ifs at h <;>
    first
      | (cases h; rfl)
      | cases h
      | (split at h <;>
          first
            | (cases h; rfl)
            | cases h)

theorem validate_ok_inv (r r' : DNSRecord) (h : validate r = .ok r') :
    r.name ≠ [] ∧ isValidRecordType r.rtype = true ∧
    validateData { r with ttl := if r.ttl = 0 then 300 else r.ttl } = .ok r' := by
  unfold validate at h
  by_cases h1 : r.name = []
  · rw [if_pos h1] at h; cases h
  · rw [if_neg h1] at h
    by_cases h2 : isValidRecordType r.rtype = true
    · rw [if_neg (not_not_intro h2)] at h
      refine ⟨h1, h2, ?_⟩
      split at h
      · cases h
      · rename_i r2 heq
        cases h
        exact heq
    · rw [if_pos h2] at h; cases h

theorem validateData_eval_a (r : DNSRecord) (hA : r.rtype = lit "A")
    (hv : ipIsV4 r.data = true) : validateData r = .ok r := by
  simp only [validateData]
  rw [if_pos hA, if_pos hv]

theorem validateData_eval_aaaa (r : DNSRecord) (hA : ¬ r.rtype = lit "A")
    (hA6 : r.rtype = lit "AAAA") (hv : ipIsV6 r.data = true) :
    validateData r = .ok r := by
  simp only [validateData]
  rw [if_neg hA, if_pos hA6, if_pos hv]

theorem validateData_eval_ptr (r : DNSRecord) (hA : ¬ r.rtype = lit "A")
    (hA6 : ¬ r.rtype = lit "AAAA")
    (hP : r.rtype = lit "PTR" ∨ r.rtype = lit "CNAME" ∨ r.rtype = lit "NS")
    (hd : ¬ r.data = []) (hs : (lit ".").isSuffixOf r.data = true) :
    validateData r = .ok r := by
  simp only [validateData]
  rw [if_neg hA, if_neg hA6, if_pos hP, if_neg hd, if_pos hs]

theorem validateData_eval_mx (r : DNSRecord) (hA : ¬ r.rtype = lit "A")
    (hA6 : ¬ r.rtype = lit "AAAA")
    (hP : ¬ (r.rtype = lit "PTR" ∨ r.rtype = lit "CNAME" ∨ r.rtype = lit "NS"))
    (hM : r.rtype = lit "MX") (p : Nat) (hp : r.priority = some p)
    (hs : (lit ".").isSuffixOf r.data = true) : validateData r = .ok r := by
  simp only [validateData]
  rw [if_neg hA, if_neg hA6, if_neg hP, if_pos hM, hp]
  simp only [if_pos hs]

theorem validateData_eval_txt (r : DNSRecord) (hA : ¬ r.rtype = lit "A")
    (hA6 : ¬ r.rtype = lit "AAAA")
    (hP : ¬ (r.rtype = lit "PTR" ∨ r.rtype = lit "CNAME" ∨ r.rtype = lit "NS"))
    (hM : ¬ r.rtype = lit "MX") (hT : r.rtype = lit "TXT")
    (hd : ¬ r.data = [])
    (hq : (['"'] : Chars).isPrefixOf r.data = true ∧
      (['"'] : Chars).isSuffixOf r.data = true) :
    validateData r = .ok r := by
  simp only [validateData]
  rw [if_neg hA, if_neg hA6, if_neg hP, if_neg hM, if_pos hT, if_neg hd,
    if_pos hq]

theorem validateData_eval_other (r : DNSRecord) (hA : ¬ r.rtype = lit "A")
    (hA6 : ¬ r.rtype = lit "AAAA")
    (hP : ¬ (r.rtype = lit "PTR" ∨ r.rtype = lit "CNAME" ∨ r.rtype = lit "NS"))
    (hM : ¬ r.rtype = lit "MX") (hT : ¬ r.rtype = lit "TXT") :
    validateData r = .ok r := by
  simp only [validateData]
  rw [if_neg hA, if_neg hA6, if_neg hP, if_neg hM, if_neg hT]

theorem validateData_idem (r r' : DNSRecord) (h : validateData r = .ok r') :
    validateData r' = .ok r' := by
  unfold validateData at h
  by_cases hA : r.rtype = lit "A"
  · rw [if_pos hA] at h
    by_cases hv : ipIsV4 r.data = true
    · rw [if_pos hv] at h
      cases h
      exact validateData_eval_a r hA hv
    · rw [if_neg hv] at h; cases h
  · rw [if_neg hA] at h
    by_cases hA6 : r.rtype = lit "AAAA"
    · rw [if_pos hA6] at h
      by_cases hv : ipIsV6 r.data = true
      · rw [if_pos hv] at h
        cases h
        exact validateData_eval_aaaa r hA hA6 hv
      · rw [if_neg hv] at h; cases h
    · rw [if_neg hA6] at h
      by_cases hP : r.rtype = lit "PTR" ∨ r.rtype = lit "CNAME" ∨ r.rtype = lit "NS"
      · rw [if_pos hP] at h
        by_cases hd : r.data = []
        · rw [if_pos hd] at h; cases h
        · rw [if_neg hd] at h
          by_cases hs : (lit ".").isSuffixOf r.data = true
          · rw [if_pos hs] at h
            cases h
            exact validateData_eval_ptr r hA hA6 hP hd hs
          · rw [if_neg hs] at h
            cases h
            exact validateData_eval_ptr _ (by simpa using hA) (by simpa using hA6)
              (by simpa using hP)
              (fun hcon => absurd (List.append_eq_nil.mp hcon).2 (by decide))
              (by simpa using isSuffixOf_append_last r.data '.')
      · rw [if_neg hP] at h
        by_cases hM : r.rtype = lit "MX"
        · rw [if_pos hM] at h
          cases hpr : r.priority with
          | none => rw [hpr] at h; cases h
          | some p =>
            rw [hpr] at h
            simp only at h
            by_cases hs : (lit ".").isSuffixOf r.data = true
            · rw [if_pos hs] at h
              cases h
              exact validateData_eval_mx r hA hA6 hP hM p hpr hs
            · rw [if_neg hs] at h
              cases h
              exact validateData_eval_mx _ (by simpa using hA) (by simpa using hA6)
                (by simpa using hP) (by simpa using hM) p (by simpa using hpr)
                (by simpa using isSuffixOf_append_last r.data '.')
        · rw [if_neg hM] at h
          by_cases hT : r.rtype = lit "TXT"
          · rw [if_pos hT] at h
            by_cases hd : r.data = []
            · rw [if_pos hd] at h; cases h
            · rw [if_neg hd] at h
              by_cases hq : (['"'] : Chars).isPrefixOf r.data = true ∧
                  (['"'] : Chars).isSuffixOf r.data = true
              · rw [if_pos hq] at h
                cases h
                exact validateData_eval_txt r hA hA6 hP hM hT hd hq
              · rw [if_neg hq] at h
                cases h
                refine validateData_eval_txt _ (by simpa using hA) (by simpa using hA6)
                  (by simpa using hP) (by simpa using hM) (by simpa using hT)
                  (by simp) ⟨by simpa using isPrefixOf_cons_self '"' _, ?_⟩
                show (['"'] : Chars).isSuffixOf
                  ('"' :: (goTrimChar r.data '"' ++ ['"'])) = true
                rw [show ('"' :: (goTrimChar r.data '"' ++ ['"']) : Chars) =
                  ('"' :: goTrimChar r.data '"') ++ ['"'] by simp]
                exact isSuffixOf_append_last _ '"'
          · rw [if_neg hT] at h
            cases h
            exact validateData_eval_other r hA hA6 hP hM hT

theorem validateData_dot_inv (r r' : DNSRecord)
    (hty : r.rtype = lit "PTR" ∨ r.rtype = lit "CNAME" ∨ r.rtype = lit "NS" ∨
      r.rtype = lit "MX")
    (hns : (lit ".").isSuffixOf r.data = false)
    (h : validateData r = .ok r') : r'.data = r.data ++ lit "." := by
  have hA : ¬ r.rtype = lit "A" := by
    rcases hty with h1 | h1 | h1 | h1 <;> rw [h1] <;> decide
  have hA6 : ¬ r.rtype = lit "AAAA" := by
    rcases hty with h1 | h1 | h1 | h1 <;> rw [h1] <;> decide
  have hnsuf : ¬ (lit ".").isSuffixOf r.data = true := by rw [hns]; simp
  unfold validateData at h
  rw [if_neg hA, if_neg hA6] at h
  rcases hty with h1 | h1 | h1 | h1
  case inl | inr.inl | inr.inr.inl =>
    rw [if_pos (by rw [h1]; simp)] at h
    by_cases hd : r.data = []
    · rw [if_pos hd] at h; cases h
    · rw [if_neg hd, if_neg hnsuf] at h
      cases h
      rfl
  case inr.inr.inr =>
    have hP : ¬ (r.rtype = lit "PTR" ∨ r.rtype = lit "CNAME" ∨
        r.rtype = lit "NS") := by
      rintro (h2 | h2 | h2) <;> rw [h1] at h2 <;> exact absurd h2 (by decide)
    rw [if_neg hP, if_pos h1] at h
    split at h
    · cases h
    · rw [if_neg hnsuf] at h
      cases h
      rfl

/-- C6 (confirmed): `Validate` is idempotent — whenever it succeeds, the
result is a fixed point (re-validating changes no field); a zero TTL is
defaulted to 300; and for PTR/CNAME/NS/MX data lacking a trailing dot,
exactly one dot is appended. -/
theorem validate_idempotent_c6 : ∀ r r' : DNSRecord, validate r = .ok r' →
    (validate r' = .ok r' ∧
     (r.ttl = 0 → r'.ttl = 300) ∧
     ((r.rtype = lit "PTR" ∨ r.rtype = lit "CNAME" ∨ r.rtype = lit "NS" ∨
       r.rtype = lit "MX") → (lit ".").isSuffixOf r.data = false →
       r'.data = r.data ++ lit ".")) := by
  intro r r' h
  obtain ⟨hn, hv, hd⟩ := validate_ok_inv r r' h
  have hsh := validateData_shape _ _ hd
  have hname : r'.name = r.name := by rw [hsh]
  have hty : r'.rtype = r.rtype := by rw [hsh]
  have httl : r'.ttl = (if r.ttl = 0 then 300 else r.ttl) := by rw [hsh]
  refine ⟨?_, ?_, ?_⟩
  · unfold validate
    rw [if_neg (by rw [hname]; exact hn),
      if_neg (not_not_intro (by rw [hty]; exact hv))]
    have httlne : ¬ r'.ttl = 0 := by
      rw [httl]
      by_cases h0 : r.ttl = 0
      · rw [if_pos h0]; norm_num
      · rw [if_neg h0]; exact h0
    have heta : ({ r' with ttl := if r'.ttl = 0 then 300 else r'.ttl } :
        DNSRecord) = r' := by
      rw [if_neg httlne]
    rw [heta, validateData_idem _ _ hd]
  · intro h0
    rw [httl, if_pos h0]
  · intro htys hns
    exact validateData_dot_inv { r with ttl := if r.ttl = 0 then 300 else r.ttl }
      r' (by simpa using htys) (by simpa using hns) hd

/-- Witness for C6: a PTR record with zero TTL and dotless data. -/
theorem validate_idempotent_c6_witness :
    validate ⟨lit "host", lit "PTR", 300, lit "target.example.com.", none⟩ =
      .ok ⟨lit "host", lit "PTR", 300, lit "target.example.com.", none⟩ ∧
    (⟨lit "host", lit "PTR", 300, lit "target.example.com.", none⟩ : DNSRecord).ttl = 300 ∧
    (⟨lit "host", lit "PTR", 300, lit "target.example.com.", none⟩ : DNSRecord).data =
      lit "target.example.com" ++ lit "." := by
  have h := validate_idempotent_c6
    ⟨lit "host", lit "PTR", 0, lit "target.example.com", none⟩
    ⟨lit "host", lit "PTR", 300, lit "target.example.com.", none⟩ (by rfl)
  exact ⟨h.1, h.2.1 rfl, h.2.2 (Or.inl rfl) (by decide)⟩

/-- C10 (confirmed): a record whose type is a lowercase or mixed-case
variant of a supported type (so it differs from its own uppercasing)
passes `Validate` regardless of data and priority: the type check is
case-insensitive but the per-type data switch matches only the exact
upper-case constants, so no per-type rule fires. -/
theorem validate_case_variant_c10 : ∀ r : DNSRecord,
    r.name ≠ [] → isValidRecordType r.rtype = true →
    r.rtype ≠ goToUpper r.rtype →
    validate r = .ok ⟨r.name, r.rtype, if r.ttl = 0 then 300 else r.ttl,
      r.data, r.priority⟩ := by
  intro r hn hv hne
  have hnot : ∀ t ∈ ([lit "A", lit "AAAA", lit "PTR", lit "CNAME", lit "NS",
      lit "MX", lit "TXT"] : List Chars), r.rtype ≠ t := by
    intro t ht hteq
    apply hne
    rw [hteq]
    fin_cases ht <;> decide
  unfold validate
  rw [if_neg hn, if_neg (not_not_intro hv)]
  have heval : validateData { r with ttl := if r.ttl = 0 then 300 else r.ttl } =
      .ok { r with ttl := if r.ttl = 0 then 300 else r.ttl } := by
    unfold validateData
    rw [if_neg (hnot (lit "A") (by simp)),
      if_neg (hnot (lit "AAAA") (by simp)),
      if_neg (by
        rintro (h | h | h)
        · exact hnot (lit "PTR") (by simp) h
        · exact hnot (lit "CNAME") (by simp) h
        · exact hnot (lit "NS") (by simp) h),
      if_neg (hnot (lit "MX") (by simp)),
      if_neg (hnot (lit "TXT") (by simp))]
  rw [heval]

/-- Witness for C10: type `a` with empty data passes validation. -/
theorem validate_case_variant_c10_witness :
    validate ⟨lit "x", lit "a", 0, [], none⟩ =
      .ok ⟨lit "x", lit "a", if (0 : Nat) = 0 then 300 else 0, [], none⟩ :=
  validate_case_variant_c10 ⟨lit "x", lit "a", 0, [], none⟩
    (by decide) (by decide) (by decide)

/-! ## Zone access guard -/

/-- C5 counterexample: the repository's second cited copy of
`IsZoneAllowed` (`src/unnamed/part_002`) compares raw strings without
canonicalization and violates the claimed iff.  With the non-empty
allow-list `[example.com]`, the zone `example.com.` canonicalizes equal to
the entry — the claimed test says allowed — yet this copy returns false;
likewise `sub.example.com` under `[example.com.]` is a canonical
label-boundary suffix match yet is rejected. -/
theorem zone_guard_c5_counterexample :
    isZoneAllowedB ⟨none, [lit "example.com"]⟩ (lit "example.com.") = false ∧
    normalizeZoneName (lit "example.com.") =
      normalizeZoneName (lit "example.com") ∧
    isZoneAllowedB ⟨none, [lit "example.com."]⟩ (lit "sub.example.com") =
      false ∧
    ('.' :: normalizeZoneName (lit "example.com.")) <:+
      normalizeZoneName (lit "sub.example.com") :=
  ⟨by decide, by decide, by decide, ⟨lit "sub", by decide⟩⟩

/-- C5, amended: the `client.go` copy of `IsZoneAllowed` satisfies the
claimed canonical test — with a non-empty allow-list it accepts a zone
exactly when, after canonicalizing both sides to trailing-dot form, the
zone equals some entry or ends with `"." + entry` (a label-boundary suffix
match); an empty allow-list accepts everything; in particular
`a.b.example.com` is allowed under `example.com` and `notexample.com` is
not.  The duplicate `part_002` copy instead compares the raw strings with
no canonicalization (equality or `"." + entry` suffix on the strings as
given), so it does not satisfy the canonical iff. -/
theorem isZoneAllowed_spec_c5 : ∀ (c : Client) (zone : Chars),
    (c.allowedZones ≠ [] →
      (isZoneAllowed c zone = true ↔
        ∃ az ∈ c.allowedZones,
          normalizeZoneName zone = normalizeZoneName az ∨
          ('.' :: normalizeZoneName az) <:+ normalizeZoneName zone)) ∧
    (c.allowedZones = [] → isZoneAllowed c zone = true) ∧
    isZoneAllowed ⟨none, [lit "example.com"]⟩ (lit "a.b.example.com") = true ∧
    isZoneAllowed ⟨none, [lit "example.com"]⟩ (lit "notexample.com") = false ∧
    (c.allowedZones ≠ [] →
      (isZoneAllowedB c zone = true ↔
        ∃ az ∈ c.allowedZones, zone = az ∨ ('.' :: az) <:+ zone)) ∧
    (c.allowedZones = [] → isZoneAllowedB c zone = true) := by
  intro c zone
  refine ⟨?_, ?_, by decide, by decide, ?_, ?_⟩
  · intro hne
    unfold isZoneAllowed
    rw [if_neg (by simpa [List.isEmpty_iff] using hne), List.any_eq_true]
    constructor
    · rintro ⟨az, hmem, hcase⟩
      rw [Bool.or_eq_true] at hcase
      refine ⟨az, hmem, ?_⟩
      rcases hcase with h | h
      · exact Or.inl (beq_iff_eq.mp h)
      · exact Or.inr (List.isSuffixOf_iff_suffix.mp h)
    · rintro ⟨az, hmem, hcase⟩
      refine ⟨az, hmem, ?_⟩
      rw [Bool.or_eq_true]
      rcases hcase with h | h
      · exact Or.inl (beq_iff_eq.mpr h)
      · exact Or.inr (List.isSuffixOf_iff_suffix.mpr h)
  · intro h0
    unfold isZoneAllowed
    rw [if_pos (by simp [h0])]
  · intro hne
    unfold isZoneAllowedB
    rw [if_neg (by simpa [List.isEmpty_iff] using hne), List.any_eq_true]
    constructor
    · rintro ⟨az, hmem, hcase⟩
      rw [Bool.or_eq_true] at hcase
      refine ⟨az, hmem, ?_⟩
      rcases hcase with h | h
      · exact Or.inl (beq_iff_eq.mp h)
      · exact Or.inr (List.isSuffixOf_iff_suffix.mp h)
    · rintro ⟨az, hmem, hcase⟩
      refine ⟨az, hmem, ?_⟩
      rw [Bool.or_eq_true]
      rcases hcase with h | h
      · exact Or.inl (beq_iff_eq.mpr h)
      · exact Or.inr (List.isSuffixOf_iff_suffix.mpr h)
  · intro h0
    unfold isZoneAllowedB
    rw [if_pos (by simp [h0])]

/-- Witness for C5 with the allow-list `[example.com]`. -/
theorem isZoneAllowed_spec_c5_witness :
    isZoneAllowed ⟨none, [lit "example.com"]⟩ (lit "a.b.example.com") = true ↔
    ∃ az ∈ [lit "example.com"],
      normalizeZoneName (lit "a.b.example.com") = normalizeZoneName az ∨
      ('.' :: normalizeZoneName az) <:+ normalizeZoneName (lit "a.b.example.com") :=
  (isZoneAllowed_spec_c5 ⟨none, [lit "example.com"]⟩ (lit "a.b.example.com")).1
    (by decide)

/-! ## Helper lemmas: store operations over an abstract gateway -/

theorem execCmd_run_ok (c : Client) (g : Gateway) (args : List Chars)
    (out : Chars) (h : g.run (sockArgs c ++ args) = .ok out) :
    execCmd c g args = (sockArgs c ++ args, .ok (trimSpace out)) := by
  simp only [execCmd, h]

theorem execCmd_run_error (c : Client) (g : Gateway) (args : List Chars)
    (et ot : Chars) (h : g.run (sockArgs c ++ args) = .error (et, ot)) :
    execCmd c g args = (sockArgs c ++ args,
      .error (lit "knotc command failed: " ++ et ++ lit ", output: " ++ ot)) := by
  simp only [execCmd, h]

theorem execCmd_fst (c : Client) (g : Gateway) (args : List Chars) :
    (execCmd c g args).1 = sockArgs c ++ args := by
  simp only [execCmd]
  cases g.run (sockArgs c ++ args) <;> rfl

theorem getRecords_trace (c : Client) (g : Gateway) (zone : Chars)
    (h : isZoneAllowed c zone = true) :
    (getRecords c g zone).1 =
      [sockArgs c ++ [lit "zone-read", normalizeZoneName zone]] := by
  simp only [getRecords, execCmd, if_neg (not_not_intro h)]
  cases g.run (sockArgs c ++ [lit "zone-read", normalizeZoneName zone]) <;> rfl

theorem getRecord_trace (c : Client) (g : Gateway) (zone name rt : Chars)
    (h : isZoneAllowed c zone = true) :
    (getRecord c g zone name rt).1 =
      [sockArgs c ++ [lit "zone-read", normalizeZoneName zone]] := by
  have ht := getRecords_trace c g zone h
  unfold getRecord
  rw [if_neg (not_not_intro h)]
  cases hgr : getRecords c g zone with
  | mk t res =>
    rw [hgr] at ht
    cases res with
    | error e => exact ht
    | ok records =>
      dsimp only
      split <;> exact ht

theorem createRecord_noop (c : Client) (g : Gateway) (zone : Chars)
    (record rv ex : DNSRecord) (tr : Trace)
    (hallow : isZoneAllowed c zone = true)
    (hval : validate record = .ok rv)
    (hprobe : getRecord c g zone rv.name rv.rtype = (tr, .ok ex))
    (h1 : ex.ttl = rv.ttl) (h2 : ex.data = rv.data)
    (h3 : ex.priority = rv.priority) :
    createRecord c g zone record = (tr, .ok ()) := by
  simp only [createRecord, hval, if_neg (not_not_intro hallow), hprobe, h1, h2,
    h3, beq_self_eq_true, Bool.and_self, Bool.true_and]
  cases rv.priority <;> simp

theorem createRecord_proceed_ok (c : Client) (g : Gateway) (zone : Chars)
    (record rv : DNSRecord) (tr : Trace) (e0 ob os oc : Chars)
    (hallow : isZoneAllowed c zone = true)
    (hval : validate record = .ok rv)
    (hprobe : getRecord c g zone rv.name rv.rtype = (tr, .error e0))
    (hbegin : g.run (sockArgs c ++ [lit "zone-begin", normalizeZoneName zone]) =
      .ok ob)
    (hset : g.run (sockArgs c ++ setArgsFor (normalizeZoneName zone) rv) =
      .ok os)
    (hcommit : g.run (sockArgs c ++ [lit "zone-commit", normalizeZoneName zone]) =
      .ok oc) :
    createRecord c g zone record =
      (tr ++ [sockArgs c ++ [lit "zone-begin", normalizeZoneName zone],
              sockArgs c ++ setArgsFor (normalizeZoneName zone) rv,
              sockArgs c ++ [lit "zone-commit", normalizeZoneName zone]],
       .ok ()) := by
  simp only [createRecord, hval, if_neg (not_not_intro hallow), hprobe,
    execCmd_run_ok _ _ _ _ hbegin, execCmd_run_ok _ _ _ _ hset,
    execCmd_run_ok _ _ _ _ hcommit]
  simp

theorem createRecord_proceed_setfail (c : Client) (g : Gateway) (zone : Chars)
    (record rv : DNSRecord) (tr : Trace) (e0 ob es os : Chars)
    (hallow : isZoneAllowed c zone = true)
    (hval : validate record = .ok rv)
    (hprobe : getRecord c g zone rv.name rv.rtype = (tr, .error e0))
    (hbegin : g.run (sockArgs c ++ [lit "zone-begin", normalizeZoneName zone]) =
      .ok ob)
    (hset : g.run (sockArgs c ++ setArgsFor (normalizeZoneName zone) rv) =
      .error (es, os)) :
    createRecord c g zone record =
      (tr ++ [sockArgs c ++ [lit "zone-begin", normalizeZoneName zone],
              sockArgs c ++ setArgsFor (normalizeZoneName zone) rv,
              sockArgs c ++ [lit "zone-abort", normalizeZoneName zone]],
       .error (lit "failed to add record to zone " ++ zone ++ lit ": " ++
         (lit "knotc command failed: " ++ es ++ lit ", output: " ++ os))) := by
  simp only [createRecord, hval, if_neg (not_not_intro hallow), hprobe,
    execCmd_run_ok _ _ _ _ hbegin, execCmd_run_error _ _ _ _ _ hset,
    execCmd_fst]
  simp

theorem subcmdOf_sock (c : Client) (l : List Chars) :
    subcmdOf c (sockArgs c ++ l) = l.head? := by
  simp [subcmdOf, List.drop_left]

theorem isMutCmd_sock (c : Client) (s : Chars) (rest : List Chars) :
    isMutCmd c (sockArgs c ++ s :: rest) =
      (s == lit "zone-begin" || s == lit "zone-set" ||
       s == lit "zone-commit" || s == lit "zone-unset") := by
  rw [isMutCmd, subcmdOf_sock]
  rfl

theorem setArgsFor_cons (nz : Chars) (r : DNSRecord) :
    ∃ rest, setArgsFor nz r = lit "zone-set" :: rest := by
  unfold setArgsFor
  split_ifs
  · cases r.priority <;> exact ⟨_, rfl⟩
  · exact ⟨_, rfl⟩

theorem isMutCmd_setArgs (c : Client) (nz : Chars) (r : DNSRecord) :
    isMutCmd c (sockArgs c ++ setArgsFor nz r) = true := by
  obtain ⟨rest, hr⟩ := setArgsFor_cons nz r
  rw [hr, isMutCmd_sock]
  decide

theorem createRecord_proceed_commitfail (c : Client) (g : Gateway) (zone : Chars)
    (record rv : DNSRecord) (tr : Trace) (e0 ob os ec oc : Chars)
    (hallow : isZoneAllowed c zone = true)
    (hval : validate record = .ok rv)
    (hprobe : getRecord c g zone rv.name rv.rtype = (tr, .error e0))
    (hbegin : g.run (sockArgs c ++ [lit "zone-begin", normalizeZoneName zone]) =
      .ok ob)
    (hset : g.run (sockArgs c ++ setArgsFor (normalizeZoneName zone) rv) =
      .ok os)
    (hcommit : g.run (sockArgs c ++ [lit "zone-commit", normalizeZoneName zone]) =
      .error (ec, oc)) :
    createRecord c g zone record =
      (tr ++ [sockArgs c ++ [lit "zone-begin", normalizeZoneName zone],
              sockArgs c ++ setArgsFor (normalizeZoneName zone) rv,
              sockArgs c ++ [lit "zone-commit", normalizeZoneName zone]],
       .error (lit "failed to commit transaction for zone " ++ zone ++ lit ": " ++
         (lit "knotc command failed: " ++ ec ++ lit ", output: " ++ oc))) := by
  simp only [createRecord, hval, if_neg (not_not_intro hallow), hprobe,
    execCmd_run_ok _ _ _ _ hbegin, execCmd_run_ok _ _ _ _ hset,
    execCmd_run_error _ _ _ _ _ hcommit]
  simp

theorem updateRecord_unsetfail (c : Client) (g : Gateway) (zone name rt : Chars)
    (updates : UpdateRecordRequest) (ex rv : DNSRecord) (tr : Trace)
    (ob eu ou : Chars)
    (hallow : isZoneAllowed c zone = true)
    (hget : getRecord c g zone name rt = (tr, .ok ex))
    (hval : validate (applyDelta ex updates) = .ok rv)
    (hbegin : g.run (sockArgs c ++ [lit "zone-begin", normalizeZoneName zone]) =
      .ok ob)
    (hunset : g.run (sockArgs c ++
      [lit "zone-unset", normalizeZoneName zone, toKnotFormat ex]) =
      .error (eu, ou)) :
    updateRecord c g zone name rt updates =
      (tr ++ [sockArgs c ++ [lit "zone-begin", normalizeZoneName zone],
              sockArgs c ++ [lit "zone-unset", normalizeZoneName zone,
                toKnotFormat ex],
              sockArgs c ++ [lit "zone-abort", normalizeZoneName zone]],
       .error (lit "failed to remove old record from zone " ++ zone ++ lit ": " ++
         (lit "knotc command failed: " ++ eu ++ lit ", output: " ++ ou))) := by
  simp only [updateRecord, if_neg (not_not_intro hallow), hget, hval,
    execCmd_run_ok _ _ _ _ hbegin, execCmd_run_error _ _ _ _ _ hunset,
    execCmd_fst]

theorem updateRecord_setfail (c : Client) (g : Gateway) (zone name rt : Chars)
    (updates : UpdateRecordRequest) (ex rv : DNSRecord) (tr : Trace)
    (ob ou es os : Chars)
    (hallow : isZoneAllowed c zone = true)
    (hget : getRecord c g zone name rt = (tr, .ok ex))
    (hval : validate (applyDelta ex updates) = .ok rv)
    (hbegin : g.run (sockArgs c ++ [lit "zone-begin", normalizeZoneName zone]) =
      .ok ob)
    (hunset : g.run (sockArgs c ++
      [lit "zone-unset", normalizeZoneName zone, toKnotFormat ex]) = .ok ou)
    (hset : g.run (sockArgs c ++ setArgsFor (normalizeZoneName zone) rv) =
      .error (es, os)) :
    updateRecord c g zone name rt updates =
      (tr ++ [sockArgs c ++ [lit "zone-begin", normalizeZoneName zone],
              sockArgs c ++ [lit "zone-unset", normalizeZoneName zone,
                toKnotFormat ex],
              sockArgs c ++ setArgsFor (normalizeZoneName zone) rv,
              sockArgs c ++ [lit "zone-abort", normalizeZoneName zone]],
       .error (lit "failed to add updated record to zone " ++ zone ++ lit ": " ++
         (lit "knotc command failed: " ++ es ++ lit ", output: " ++ os))) := by
  simp only [updateRecord, if_neg (not_not_intro hallow), hget, hval,
    execCmd_run_ok _ _ _ _ hbegin, execCmd_run_ok _ _ _ _ hunset,
    execCmd_run_error _ _ _ _ _ hset, execCmd_fst]

theorem updateRecord_commitfail (c : Client) (g : Gateway) (zone name rt : Chars)
    (updates : UpdateRecordRequest) (ex rv : DNSRecord) (tr : Trace)
    (ob ou os ec oc : Chars)
    (hallow : isZoneAllowed c zone = true)
    (hget : getRecord c g zone name rt = (tr, .ok ex))
    (hval : validate (applyDelta ex updates) = .ok rv)
    (hbegin : g.run (sockArgs c ++ [lit "zone-begin", normalizeZoneName zone]) =
      .ok ob)
    (hunset : g.run (sockArgs c ++
      [lit "zone-unset", normalizeZoneName zone, toKnotFormat ex]) = .ok ou)
    (hset : g.run (sockArgs c ++ setArgsFor (normalizeZoneName zone) rv) =
      .ok os)
    (hcommit : g.run (sockArgs c ++ [lit "zone-commit", normalizeZoneName zone]) =
      .error (ec, oc)) :
    updateRecord c g zone name rt updates =
      (tr ++ [sockArgs c ++ [lit "zone-begin", normalizeZoneName zone],
              sockArgs c ++ [lit "zone-unset", normalizeZoneName zone,
                toKnotFormat ex],
              sockArgs c ++ setArgsFor (normalizeZoneName zone) rv,
              sockArgs c ++ [lit "zone-commit", normalizeZoneName zone]],
       .error (lit "failed to commit transaction for zone " ++ zone ++ lit ": " ++
         (lit "knotc command failed: " ++ ec ++ lit ", output: " ++ oc))) := by
  simp only [updateRecord, if_neg (not_not_intro hallow), hget, hval,
    execCmd_run_ok _ _ _ _ hbegin, execCmd_run_ok _ _ _ _ hunset,
    execCmd_run_ok _ _ _ _ hset, execCmd_run_error _ _ _ _ _ hcommit]

theorem updateRecord_allok (c : Client) (g : Gateway) (zone name rt : Chars)
    (updates : UpdateRecordRequest) (ex rv : DNSRecord) (tr : Trace)
    (ob ou os oc : Chars)
    (hallow : isZoneAllowed c zone = true)
    (hget : getRecord c g zone name rt = (tr, .ok ex))
    (hval : validate (applyDelta ex updates) = .ok rv)
    (hbegin : g.run (sockArgs c ++ [lit "zone-begin", normalizeZoneName zone]) =
      .ok ob)
    (hunset : g.run (sockArgs c ++
      [lit "zone-unset", normalizeZoneName zone, toKnotFormat ex]) = .ok ou)
    (hset : g.run (sockArgs c ++ setArgsFor (normalizeZoneName zone) rv) =
      .ok os)
    (hcommit : g.run (sockArgs c ++ [lit "zone-commit", normalizeZoneName zone]) =
      .ok oc) :
    updateRecord c g zone name rt updates =
      (tr ++ [sockArgs c ++ [lit "zone-begin", normalizeZoneName zone],
              sockArgs c ++ [lit "zone-unset", normalizeZoneName zone,
                toKnotFormat ex],
              sockArgs c ++ setArgsFor (normalizeZoneName zone) rv,
              sockArgs c ++ [lit "zone-commit", normalizeZoneName zone]],
       .ok ()) := by
  simp only [updateRecord, if_neg (not_not_intro hallow), hget, hval,
    execCmd_run_ok _ _ _ _ hbegin, execCmd_run_ok _ _ _ _ hunset,
    execCmd_run_ok _ _ _ _ hset, execCmd_run_ok _ _ _ _ hcommit]

theorem deleteRecord_unsetfail (c : Client) (g : Gateway) (zone name rt : Chars)
    (ex : DNSRecord) (tr : Trace) (ob eu ou : Chars)
    (hallow : isZoneAllowed c zone = true)
    (hget : getRecord c g zone name rt = (tr, .ok ex))
    (hbegin : g.run (sockArgs c ++ [lit "zone-begin", zone]) = .ok ob)
    (hunset : g.run (sockArgs c ++ [lit "zone-unset", zone, name ++ ' ' :: rt]) =
      .error (eu, ou)) :
    deleteRecord c g zone name rt =
      (tr ++ [sockArgs c ++ [lit "zone-begin", zone],
              sockArgs c ++ [lit "zone-unset", zone, name ++ ' ' :: rt],
              sockArgs c ++ [lit "zone-abort", zone]],
       .error (lit "failed to remove record from zone " ++ zone ++ lit ": " ++
         (lit "knotc command failed: " ++ eu ++ lit ", output: " ++ ou))) := by
  simp only [deleteRecord, if_neg (not_not_intro hallow), hget,
    execCmd_run_ok _ _ _ _ hbegin, execCmd_run_error _ _ _ _ _ hunset,
    execCmd_fst]

theorem deleteRecord_commitfail (c : Client) (g : Gateway) (zone name rt : Chars)
    (ex : DNSRecord) (tr : Trace) (ob ou ec oc : Chars)
    (hallow : isZoneAllowed c zone = true)
    (hget : getRecord c g zone name rt = (tr, .ok ex))
    (hbegin : g.run (sockArgs c ++ [lit "zone-begin", zone]) = .ok ob)
    (hunset : g.run (sockArgs c ++ [lit "zone-unset", zone, name ++ ' ' :: rt]) =
      .ok ou)
    (hcommit : g.run (sockArgs c ++ [lit "zone-commit", zone]) =
      .error (ec, oc)) :
    deleteRecord c g zone name rt =
      (tr ++ [sockArgs c ++ [lit "zone-begin", zone],
              sockArgs c ++ [lit "zone-unset", zone, name ++ ' ' :: rt],
              sockArgs c ++ [lit "zone-commit", zone]],
       .error (lit "failed to commit transaction for zone " ++ zone ++ lit ": " ++
         (lit "knotc command failed: " ++ ec ++ lit ", output: " ++ oc))) := by
  simp only [deleteRecord, if_neg (not_not_intro hallow), hget,
    execCmd_run_ok _ _ _ _ hbegin, execCmd_run_ok _ _ _ _ hunset,
    execCmd_run_error _ _ _ _ _ hcommit]

theorem isAbortCmd_sock (c : Client) (s : Chars) (rest : List Chars) :
    isAbortCmd c (sockArgs c ++ s :: rest) = (s == lit "zone-abort") := by
  rw [isAbortCmd, subcmdOf_sock]
  rfl

theorem isAbortCmd_setArgs (c : Client) (nz : Chars) (r : DNSRecord) :
    isAbortCmd c (sockArgs c ++ setArgsFor nz r) = false := by
  obtain ⟨rest, hr⟩ := setArgsFor_cons nz r
  rw [hr, isAbortCmd_sock]
  decide

/-- C3 (confirmed): when `CreateRecord`'s probe finds an existing record
with equal TTL, data and priority, the call succeeds having issued only the
probe's `zone-read` — no `zone-begin`, `zone-set`, `zone-commit` or
`zone-unset`; consequently, after a first call that misses its probe and
performs the full begin/set/commit sequence, an identical second call whose
probe now finds the created record is a pure no-op, and the two calls
together issue exactly one begin/set/commit sequence. -/
theorem createRecord_idempotent_c3 :
    ∀ (c : Client) (g1 g2 : Gateway) (zone : Chars) (record rv ex : DNSRecord)
      (tr1 tr2 : Trace) (e0 ob os oc : Chars),
    isZoneAllowed c zone = true →
    validate record = .ok rv →
    getRecord c g1 zone rv.name rv.rtype = (tr1, .error e0) →
    g1.run (sockArgs c ++ [lit "zone-begin", normalizeZoneName zone]) = .ok ob →
    g1.run (sockArgs c ++ setArgsFor (normalizeZoneName zone) rv) = .ok os →
    g1.run (sockArgs c ++ [lit "zone-commit", normalizeZoneName zone]) = .ok oc →
    getRecord c g2 zone rv.name rv.rtype = (tr2, .ok ex) →
    ex.ttl = rv.ttl → ex.data = rv.data → ex.priority = rv.priority →
    ((createRecord c g1 zone record).2 = .ok () ∧
     (createRecord c g1 zone record).1.filter (isMutCmd c) =
       [sockArgs c ++ [lit "zone-begin", normalizeZoneName zone],
        sockArgs c ++ setArgsFor (normalizeZoneName zone) rv,
        sockArgs c ++ [lit "zone-commit", normalizeZoneName zone]] ∧
     createRecord c g2 zone record = (tr2, .ok ()) ∧
     (createRecord c g2 zone record).1.filter (isMutCmd c) = []) := by
  intro c g1 g2 zone record rv ex tr1 tr2 e0 ob os oc hallow hval hprobe1
    hbegin hset hcommit hprobe2 hteq hdeq hpeq
  have htr1 : tr1 = [sockArgs c ++ [lit "zone-read", normalizeZoneName zone]] := by
    have h := getRecord_trace c g1 zone rv.name rv.rtype hallow
    rw [hprobe1] at h
    exact h
  have htr2 : tr2 = [sockArgs c ++ [lit "zone-read", normalizeZoneName zone]] := by
    have h := getRecord_trace c g2 zone rv.name rv.rtype hallow
    rw [hprobe2] at h
    exact h
  have h1 := createRecord_proceed_ok c g1 zone record rv tr1 e0 ob os oc
    hallow hval hprobe1 hbegin hset hcommit
  have h2 := createRecord_noop c g2 zone record rv ex tr2 hallow hval hprobe2
    hteq hdeq hpeq
  refine ⟨by rw [h1], ?_, h2, ?_⟩
  · rw [h1, htr1]
    simp only [List.cons_append, List.nil_append, List.filter]
    rw [show isMutCmd c (sockArgs c ++ [lit "zone-read", normalizeZoneName zone]) =
        false by rw [isMutCmd_sock]; decide,
      show isMutCmd c (sockArgs c ++ [lit "zone-begin", normalizeZoneName zone]) =
        true by rw [isMutCmd_sock]; decide,
      isMutCmd_setArgs c (normalizeZoneName zone) rv,
      show isMutCmd c (sockArgs c ++ [lit "zone-commit", normalizeZoneName zone]) =
        true by rw [isMutCmd_sock]; decide]
  · rw [h2, htr2]
    simp only [List.filter]
    rw [show isMutCmd c (sockArgs c ++ [lit "zone-read", normalizeZoneName zone]) =
        false by rw [isMutCmd_sock]; decide]

/-- Witness for C3: a second `CreateRecord` of `test-vm.example.com. A`
against a gateway whose zone read returns the created record is a pure
no-op issuing a single `zone-read`. -/
theorem createRecord_idempotent_c3_witness :
    createRecord ⟨none, []⟩
      ⟨fun _ => .ok (lit "test-vm.example.com. 300 A 192.0.2.1")⟩
      (lit "example.com")
      ⟨lit "test-vm.example.com.", lit "A", 300, lit "192.0.2.1", none⟩ =
      ([[lit "zone-read", lit "example.com."]], .ok ()) ∧
    (createRecord ⟨none, []⟩
      ⟨fun _ => .ok (lit "test-vm.example.com. 300 A 192.0.2.1")⟩
      (lit "example.com")
      ⟨lit "test-vm.example.com.", lit "A", 300, lit "192.0.2.1", none⟩).1.filter
        (isMutCmd ⟨none, []⟩) = [] := by
  have h := createRecord_idempotent_c3 ⟨none, []⟩ ⟨fun _ => .ok []⟩
    ⟨fun _ => .ok (lit "test-vm.example.com. 300 A 192.0.2.1")⟩
    (lit "example.com")
    ⟨lit "test-vm.example.com.", lit "A", 300, lit "192.0.2.1", none⟩
    ⟨lit "test-vm.example.com.", lit "A", 300, lit "192.0.2.1", none⟩
    ⟨lit "test-vm.example.com.", lit "A", 300, lit "192.0.2.1", none⟩
    [[lit "zone-read", lit "example.com."]]
    [[lit "zone-read", lit "example.com."]]
    (lit "record not found: test-vm.example.com. A in zone example.com")
    [] [] []
    (by rfl) (by rfl) (by rfl) (by rfl) (by rfl) (by rfl) (by rfl)
    (by rfl) (by rfl) (by rfl)
  exact ⟨h.2.2.1, h.2.2.2⟩

/-- C8 (confirmed): in `CreateRecord` and `UpdateRecord`, when the
`zone-set` step fails after a successful `zone-begin`, the store issues
`zone-abort` before returning and returns the set step's error; the
gateway's behaviour at the abort command is unconstrained, so the
conclusion holds even when the abort itself fails. -/
theorem set_failure_aborts_c8 :
    (∀ (c : Client) (g : Gateway) (zone : Chars) (record rv : DNSRecord)
       (tr : Trace) (e0 ob es os : Chars),
      isZoneAllowed c zone = true →
      validate record = .ok rv →
      getRecord c g zone rv.name rv.rtype = (tr, .error e0) →
      g.run (sockArgs c ++ [lit "zone-begin", normalizeZoneName zone]) = .ok ob →
      g.run (sockArgs c ++ setArgsFor (normalizeZoneName zone) rv) =
        .error (es, os) →
      createRecord c g zone record =
        (tr ++ [sockArgs c ++ [lit "zone-begin", normalizeZoneName zone],
                sockArgs c ++ setArgsFor (normalizeZoneName zone) rv,
                sockArgs c ++ [lit "zone-abort", normalizeZoneName zone]],
         .error (lit "failed to add record to zone " ++ zone ++ lit ": " ++
           (lit "knotc command failed: " ++ es ++ lit ", output: " ++ os)))) ∧
    (∀ (c : Client) (g : Gateway) (zone name rt : Chars)
       (updates : UpdateRecordRequest) (ex rv : DNSRecord) (tr : Trace)
       (ob ou es os : Chars),
      isZoneAllowed c zone = true →
      getRecord c g zone name rt = (tr, .ok ex) →
      validate (applyDelta ex updates) = .ok rv →
      g.run (sockArgs c ++ [lit "zone-begin", normalizeZoneName zone]) = .ok ob →
      g.run (sockArgs c ++
        [lit "zone-unset", normalizeZoneName zone, toKnotFormat ex]) = .ok ou →
      g.run (sockArgs c ++ setArgsFor (normalizeZoneName zone) rv) =
        .error (es, os) →
      updateRecord c g zone name rt updates =
        (tr ++ [sockArgs c ++ [lit "zone-begin", normalizeZoneName zone],
                sockArgs c ++ [lit "zone-unset", normalizeZoneName zone,
                  toKnotFormat ex],
                sockArgs c ++ setArgsFor (normalizeZoneName zone) rv,
                sockArgs c ++ [lit "zone-abort", normalizeZoneName zone]],
         .error (lit "failed to add updated record to zone " ++ zone ++ lit ": " ++
           (lit "knotc command failed: " ++ es ++ lit ", output: " ++ os)))) :=
  ⟨fun c g zone record rv tr e0 ob es os hallow hval hprobe hbegin hset =>
    createRecord_proceed_setfail c g zone record rv tr e0 ob es os
      hallow hval hprobe hbegin hset,
   fun c g zone name rt updates ex rv tr ob ou es os hallow hget hval
       hbegin hunset hset =>
    updateRecord_setfail c g zone name rt updates ex rv tr ob ou es os
      hallow hget hval hbegin hunset hset⟩

/-- Witness for C8: the set step fails and the abort fails too; the trace
ends with `zone-abort` and the returned error is the set step's. -/
theorem set_failure_aborts_c8_witness :
    createRecord ⟨none, []⟩
      ⟨fun cmd => if cmd.head? = some (lit "zone-read") then .ok []
        else if cmd.head? = some (lit "zone-begin") then .ok []
        else .error (lit "boom", [])⟩
      (lit "example.com") ⟨lit "w", lit "A", 300, lit "192.0.2.1", none⟩ =
    ([[lit "zone-read", lit "example.com."],
      [lit "zone-begin", lit "example.com."],
      [lit "zone-set", lit "example.com.", lit "w", lit "300", lit "A",
       lit "192.0.2.1"],
      [lit "zone-abort", lit "example.com."]],
     .error (lit "failed to add record to zone example.com: knotc command failed: boom, output: ")) :=
  set_failure_aborts_c8.1 ⟨none, []⟩
    ⟨fun cmd => if cmd.head? = some (lit "zone-read") then .ok []
      else if cmd.head? = some (lit "zone-begin") then .ok []
      else .error (lit "boom", [])⟩
    (lit "example.com") ⟨lit "w", lit "A", 300, lit "192.0.2.1", none⟩
    ⟨lit "w", lit "A", 300, lit "192.0.2.1", none⟩
    [[lit "zone-read", lit "example.com."]]
    (lit "record not found: w A in zone example.com") [] (lit "boom") []
    (by rfl) (by rfl) (by rfl) (by rfl) (by rfl)

/-- C2 counterexample: a run of `CreateRecord` in which `zone-begin` and
`zone-set` succeed but `zone-commit` fails.  The call returns the commit
error, yet its trace contains no `zone-abort` command — contradicting the
claim that every post-begin failure, including a commit failure, triggers
an abort. -/
theorem commit_failure_c2_counterexample :
    createRecord ⟨none, []⟩
      ⟨fun cmd => if cmd.head? = some (lit "zone-commit") then
          .error (lit "commit boom", []) else .ok []⟩
      (lit "example.com")
      ⟨lit "test-vm.example.com.", lit "A", 300, lit "192.0.2.1", none⟩ =
      ([[lit "zone-read", lit "example.com."],
        [lit "zone-begin", lit "example.com."],
        [lit "zone-set", lit "example.com.", lit "test-vm", lit "300", lit "A",
         lit "192.0.2.1"],
        [lit "zone-commit", lit "example.com."]],
       .error (lit "failed to commit transaction for zone example.com: knotc command failed: commit boom, output: ")) ∧
    (createRecord ⟨none, []⟩
      ⟨fun cmd => if cmd.head? = some (lit "zone-commit") then
          .error (lit "commit boom", []) else .ok []⟩
      (lit "example.com")
      ⟨lit "test-vm.example.com.", lit "A", 300, lit "192.0.2.1", none⟩).1.filter
        (isAbortCmd ⟨none, []⟩) = [] :=
  ⟨rfl, rfl⟩

/-- C2, amended: across `CreateRecord`, `UpdateRecord` and `DeleteRecord`,
a failure of the mutating `zone-unset`/`zone-set` step after a successful
`zone-begin` issues `zone-abort` before returning and the returned error is
that step's error (the abort's outcome is unconstrained); a failure of
`zone-commit`, however, returns the commit error without issuing any
`zone-abort`. -/
theorem abort_discipline_c2_amended :
    (∀ (c : Client) (g : Gateway) (zone : Chars) (record rv : DNSRecord)
       (tr : Trace) (e0 ob es os : Chars),
      isZoneAllowed c zone = true →
      validate record = .ok rv →
      getRecord c g zone rv.name rv.rtype = (tr, .error e0) →
      g.run (sockArgs c ++ [lit "zone-begin", normalizeZoneName zone]) = .ok ob →
      g.run (sockArgs c ++ setArgsFor (normalizeZoneName zone) rv) =
        .error (es, os) →
      createRecord c g zone record =
        (tr ++ [sockArgs c ++ [lit "zone-begin", normalizeZoneName zone],
                sockArgs c ++ setArgsFor (normalizeZoneName zone) rv,
                sockArgs c ++ [lit "zone-abort", normalizeZoneName zone]],
         .error (lit "failed to add record to zone " ++ zone ++ lit ": " ++
           (lit "knotc command failed: " ++ es ++ lit ", output: " ++ os)))) ∧
    (∀ (c : Client) (g : Gateway) (zone name rt : Chars)
       (updates : UpdateRecordRequest) (ex rv : DNSRecord) (tr : Trace)
       (ob eu ou : Chars),
      isZoneAllowed c zone = true →
      getRecord c g zone name rt = (tr, .ok ex) →
      validate (applyDelta ex updates) = .ok rv →
      g.run (sockArgs c ++ [lit "zone-begin", normalizeZoneName zone]) = .ok ob →
      g.run (sockArgs c ++
        [lit "zone-unset", normalizeZoneName zone, toKnotFormat ex]) =
        .error (eu, ou) →
      updateRecord c g zone name rt updates =
        (tr ++ [sockArgs c ++ [lit "zone-begin", normalizeZoneName zone],
                sockArgs c ++ [lit "zone-unset", normalizeZoneName zone,
                  toKnotFormat ex],
                sockArgs c ++ [lit "zone-abort", normalizeZoneName zone]],
         .error (lit "failed to remove old record from zone " ++ zone ++
           lit ": " ++
           (lit "knotc command failed: " ++ eu ++ lit ", output: " ++ ou)))) ∧
    (∀ (c : Client) (g : Gateway) (zone name rt : Chars) (ex : DNSRecord)
       (tr : Trace) (ob eu ou : Chars),
      isZoneAllowed c zone = true →
      getRecord c g zone name rt = (tr, .ok ex) →
      g.run (sockArgs c ++ [lit "zone-begin", zone]) = .ok ob →
      g.run (sockArgs c ++ [lit "zone-unset", zone, name ++ ' ' :: rt]) =
        .error (eu, ou) →
      deleteRecord c g zone name rt =
        (tr ++ [sockArgs c ++ [lit "zone-begin", zone],
                sockArgs c ++ [lit "zone-unset", zone, name ++ ' ' :: rt],
                sockArgs c ++ [lit "zone-abort", zone]],
         .error (lit "failed to remove record from zone " ++ zone ++ lit ": " ++
           (lit "knotc command failed: " ++ eu ++ lit ", output: " ++ ou)))) ∧
    (∀ (c : Client) (g : Gateway) (zone : Chars) (record rv : DNSRecord)
       (tr : Trace) (e0 ob os ec oc : Chars),
      isZoneAllowed c zone = true →
      validate record = .ok rv →
      getRecord c g zone rv.name rv.rtype = (tr, .error e0) →
      g.run (sockArgs c ++ [lit "zone-begin", normalizeZoneName zone]) = .ok ob →
      g.run (sockArgs c ++ setArgsFor (normalizeZoneName zone) rv) = .ok os →
      g.run (sockArgs c ++ [lit "zone-commit", normalizeZoneName zone]) =
        .error (ec, oc) →
      createRecord c g zone record =
        (tr ++ [sockArgs c ++ [lit "zone-begin", normalizeZoneName zone],
                sockArgs c ++ setArgsFor (normalizeZoneName zone) rv,
                sockArgs c ++ [lit "zone-commit", normalizeZoneName zone]],
         .error (lit "failed to commit transaction for zone " ++ zone ++
           lit ": " ++
           (lit "knotc command failed: " ++ ec ++ lit ", output: " ++ oc))) ∧
      (createRecord c g zone record).1.filter (isAbortCmd c) = []) ∧
    (∀ (c : Client) (g : Gateway) (zone name rt : Chars)
       (updates : UpdateRecordRequest) (ex rv : DNSRecord) (tr : Trace)
       (ob ou os ec oc : Chars),
      isZoneAllowed c zone = true →
      getRecord c g zone name rt = (tr, .ok ex) →
      validate (applyDelta ex updates) = .ok rv →
      g.run (sockArgs c ++ [lit "zone-begin", normalizeZoneName zone]) = .ok ob →
      g.run (sockArgs c ++
        [lit "zone-unset", normalizeZoneName zone, toKnotFormat ex]) = .ok ou →
      g.run (sockArgs c ++ setArgsFor (normalizeZoneName zone) rv) = .ok os →
      g.run (sockArgs c ++ [lit "zone-commit", normalizeZoneName zone]) =
        .error (ec, oc) →
      updateRecord c g zone name rt updates =
        (tr ++ [sockArgs c ++ [lit "zone-begin", normalizeZoneName zone],
                sockArgs c ++ [lit "zone-unset", normalizeZoneName zone,
                  toKnotFormat ex],
                sockArgs c ++ setArgsFor (normalizeZoneName zone) rv,
                sockArgs c ++ [lit "zone-commit", normalizeZoneName zone]],
         .error (lit "failed to commit transaction for zone " ++ zone ++
           lit ": " ++
           (lit "knotc command failed: " ++ ec ++ lit ", output: " ++ oc))) ∧
      (updateRecord c g zone name rt updates).1.filter (isAbortCmd c) = []) ∧
    (∀ (c : Client) (g : Gateway) (zone name rt : Chars) (ex : DNSRecord)
       (tr : Trace) (ob ou ec oc : Chars),
      isZoneAllowed c zone = true →
      getRecord c g zone name rt = (tr, .ok ex) →
      g.run (sockArgs c ++ [lit "zone-begin", zone]) = .ok ob →
      g.run (sockArgs c ++ [lit "zone-unset", zone, name ++ ' ' :: rt]) = .ok ou →
      g.run (sockArgs c ++ [lit "zone-commit", zone]) = .error (ec, oc) →
      deleteRecord c g zone name rt =
        (tr ++ [sockArgs c ++ [lit "zone-begin", zone],
                sockArgs c ++ [lit "zone-unset", zone, name ++ ' ' :: rt],
                sockArgs c ++ [lit "zone-commit", zone]],
         .error (lit "failed to commit transaction for zone " ++ zone ++
           lit ": " ++
           (lit "knotc command failed: " ++ ec ++ lit ", output: " ++ oc))) ∧
      (deleteRecord c g zone name rt).1.filter (isAbortCmd c) = []) ∧
    (∀ (c : Client) (g : Gateway) (zone name rt : Chars)
       (updates : UpdateRecordRequest) (ex rv : DNSRecord) (tr : Trace)
       (ob ou es os : Chars),
      isZoneAllowed c zone = true →
      getRecord c g zone name rt = (tr, .ok ex) →
      validate (applyDelta ex updates) = .ok rv →
      g.run (sockArgs c ++ [lit "zone-begin", normalizeZoneName zone]) = .ok ob →
      g.run (sockArgs c ++
        [lit "zone-unset", normalizeZoneName zone, toKnotFormat ex]) = .ok ou →
      g.run (sockArgs c ++ setArgsFor (normalizeZoneName zone) rv) =
        .error (es, os) →
      updateRecord c g zone name rt updates =
        (tr ++ [sockArgs c ++ [lit "zone-begin", normalizeZoneName zone],
                sockArgs c ++ [lit "zone-unset", normalizeZoneName zone,
                  toKnotFormat ex],
                sockArgs c ++ setArgsFor (normalizeZoneName zone) rv,
                sockArgs c ++ [lit "zone-abort", normalizeZoneName zone]],
         .error (lit "failed to add updated record to zone " ++ zone ++
           lit ": " ++
           (lit "knotc command failed: " ++ es ++ lit ", output: " ++ os)))) := by
  refine ⟨?_, ?_, ?_, ?_, ?_, ?_, ?_⟩
  · intro c g zone record rv tr e0 ob es os hallow hval hprobe hbegin hset
    exact createRecord_proceed_setfail c g zone record rv tr e0 ob es os
      hallow hval hprobe hbegin hset
  · intro c g zone name rt updates ex rv tr ob eu ou hallow hget hval hbegin
      hunset
    exact updateRecord_unsetfail c g zone name rt updates ex rv tr ob eu ou
      hallow hget hval hbegin hunset
  · intro c g zone name rt ex tr ob eu ou hallow hget hbegin hunset
    exact deleteRecord_unsetfail c g zone name rt ex tr ob eu ou
      hallow hget hbegin hunset
  · intro c g zone record rv tr e0 ob os ec oc hallow hval hprobe hbegin hset
      hcommit
    have hconcl := createRecord_proceed_commitfail c g zone record rv tr e0 ob
      os ec oc hallow hval hprobe hbegin hset hcommit
    have htr : tr = [sockArgs c ++ [lit "zone-read", normalizeZoneName zone]] := by
      have h := getRecord_trace c g zone rv.name rv.rtype hallow
      rw [hprobe] at h
      exact h
    refine ⟨hconcl, ?_⟩
    rw [hconcl, htr]
    simp [isAbortCmd_setArgs,
      show isAbortCmd c (sockArgs c ++ [lit "zone-read", normalizeZoneName zone]) =
        false by rw [isAbortCmd_sock]; decide,
      show isAbortCmd c (sockArgs c ++ [lit "zone-begin", normalizeZoneName zone]) =
        false by rw [isAbortCmd_sock]; decide,
      show isAbortCmd c (sockArgs c ++ [lit "zone-commit", normalizeZoneName zone]) =
        false by rw [isAbortCmd_sock]; decide]
  · intro c g zone name rt updates ex rv tr ob ou os ec oc hallow hget hval
      hbegin hunset hset hcommit
    have hconcl := updateRecord_commitfail c g zone name rt updates ex rv tr ob
      ou os ec oc hallow hget hval hbegin hunset hset hcommit
    have htr : tr = [sockArgs c ++ [lit "zone-read", normalizeZoneName zone]] := by
      have h := getRecord_trace c g zone name rt hallow
      rw [hget] at h
      exact h
    refine ⟨hconcl, ?_⟩
    rw [hconcl, htr]
    simp [isAbortCmd_setArgs,
      show isAbortCmd c (sockArgs c ++ [lit "zone-read", normalizeZoneName zone]) =
        false by rw [isAbortCmd_sock]; decide,
      show isAbortCmd c (sockArgs c ++ [lit "zone-begin", normalizeZoneName zone]) =
        false by rw [isAbortCmd_sock]; decide,
      show isAbortCmd c (sockArgs c ++ [lit "zone-unset", normalizeZoneName zone,
        toKnotFormat ex]) = false by rw [isAbortCmd_sock]; decide,
      show isAbortCmd c (sockArgs c ++ [lit "zone-commit", normalizeZoneName zone]) =
        false by rw [isAbortCmd_sock]; decide]
  · intro c g zone name rt ex tr ob ou ec oc hallow hget hbegin hunset hcommit
    have hconcl := deleteRecord_commitfail c g zone name rt ex tr ob ou ec oc
      hallow hget hbegin hunset hcommit
    have htr : tr = [sockArgs c ++ [lit "zone-read", normalizeZoneName zone]] := by
      have h := getRecord_trace c g zone name rt hallow
      rw [hget] at h
      exact h
    refine ⟨hconcl, ?_⟩
    rw [hconcl, htr]
    simp [show isAbortCmd c (sockArgs c ++ [lit "zone-read",
        normalizeZoneName zone]) = false by rw [isAbortCmd_sock]; decide,
      show isAbortCmd c (sockArgs c ++ [lit "zone-begin", zone]) = false by
        rw [isAbortCmd_sock]; decide,
      show isAbortCmd c (sockArgs c ++ [lit "zone-unset", zone,
        name ++ ' ' :: rt]) = false by rw [isAbortCmd_sock]; decide,
      show isAbortCmd c (sockArgs c ++ [lit "zone-commit", zone]) = false by
        rw [isAbortCmd_sock]; decide]
  · intro c g zone name rt updates ex rv tr ob ou es os hallow hget hval hbegin
      hunset hset
    exact updateRecord_setfail c g zone name rt updates ex rv tr ob ou es os
      hallow hget hval hbegin hunset hset

/-- Witness for the amended C2: a concrete `CreateRecord` run whose commit
fails returns the commit error with no abort in its trace. -/
theorem abort_discipline_c2_amended_witness :
    createRecord ⟨none, []⟩
      ⟨fun cmd => if cmd.head? = some (lit "zone-commit") then
          .error (lit "commit boom", []) else .ok []⟩
      (lit "example.com")
      ⟨lit "w", lit "A", 300, lit "192.0.2.1", none⟩ =
      ([[lit "zone-read", lit "example.com."],
        [lit "zone-begin", lit "example.com."],
        [lit "zone-set", lit "example.com.", lit "w", lit "300", lit "A",
         lit "192.0.2.1"],
        [lit "zone-commit", lit "example.com."]],
       .error (lit "failed to commit transaction for zone example.com: knotc command failed: commit boom, output: ")) ∧
    (createRecord ⟨none, []⟩
      ⟨fun cmd => if cmd.head? = some (lit "zone-commit") then
          .error (lit "commit boom", []) else .ok []⟩
      (lit "example.com")
      ⟨lit "w", lit "A", 300, lit "192.0.2.1", none⟩).1.filter
        (isAbortCmd ⟨none, []⟩) = [] :=
  abort_discipline_c2_amended.2.2.2.1 ⟨none, []⟩
    ⟨fun cmd => if cmd.head? = some (lit "zone-commit") then
        .error (lit "commit boom", []) else .ok []⟩
    (lit "example.com") ⟨lit "w", lit "A", 300, lit "192.0.2.1", none⟩
    ⟨lit "w", lit "A", 300, lit "192.0.2.1", none⟩
    [[lit "zone-read", lit "example.com."]]
    (lit "record not found: w A in zone example.com") [] [] (lit "commit boom")
    []
    (by rfl) (by rfl) (by rfl) (by rfl) (by rfl) (by rfl)

/-! ## UpdateRecord: exact-value removal (C4) -/

theorem applyDelta_name_rtype (ex : DNSRecord) (u : UpdateRecordRequest) :
    (applyDelta ex u).name = ex.name ∧ (applyDelta ex u).rtype = ex.rtype := by
  unfold applyDelta
  cases u.ttl <;> cases u.data <;> cases u.priority <;> exact ⟨rfl, rfl⟩

theorem validate_name_rtype (r r' : DNSRecord) (h : validate r = .ok r') :
    r'.name = r.name ∧ r'.rtype = r.rtype := by
  obtain ⟨-, -, hd⟩ := validate_ok_inv r r' h
  have hsh := validateData_shape _ _ hd
  exact ⟨by rw [hsh], by rw [hsh]⟩

/-- C4 counterexample: a run of `UpdateRecord` on a fetched record with
TTL 0 and a delta whose only present field is `data`.  The issued `zone-set`
carries TTL `300` while the fetched record's TTL is `0` — the subsequently
set record differs from the fetched one in a field (`ttl`) that is absent
from the delta, because `Validate` renormalizes the merged record. -/
theorem update_delta_only_c4_counterexample :
    updateRecord ⟨none, []⟩
      ⟨fun cmd => if cmd.head? = some (lit "zone-read") then
          .ok (lit "w 0 CNAME x.com.") else .ok []⟩
      (lit "example.com") (lit "w") (lit "CNAME")
      ⟨none, some (lit "y.com."), none⟩ =
      ([[lit "zone-read", lit "example.com."],
        [lit "zone-begin", lit "example.com."],
        [lit "zone-unset", lit "example.com.", lit "w 0 CNAME x.com."],
        [lit "zone-set", lit "example.com.", lit "w", lit "300", lit "CNAME",
         lit "y.com."],
        [lit "zone-commit", lit "example.com."]],
       .ok ()) ∧
    (getRecord ⟨none, []⟩
      ⟨fun cmd => if cmd.head? = some (lit "zone-read") then
          .ok (lit "w 0 CNAME x.com.") else .ok []⟩
      (lit "example.com") (lit "w") (lit "CNAME")).2 =
      .ok ⟨lit "w", lit "CNAME", 0, lit "x.com.", none⟩ ∧
    (⟨none, some (lit "y.com."), none⟩ : UpdateRecordRequest).ttl = none :=
  ⟨rfl, rfl, rfl⟩

/-- C4, amended: `UpdateRecord` captures the fetched record's exact
`ToKnotFormat` line before applying the delta and passes exactly that
string as the `zone-unset` match argument; the subsequently set record is
the `Validate`-normalization of the fetched record overwritten by the
delta's present fields — its name and type always equal the fetched
record's, but validation may renormalize TTL or data even when those are
absent from the delta. -/
theorem updateRecord_exact_unset_c4 :
    ∀ (c : Client) (g : Gateway) (zone name rt : Chars)
      (updates : UpdateRecordRequest) (ex rv : DNSRecord) (tr : Trace)
      (ob ou os oc : Chars),
    isZoneAllowed c zone = true →
    getRecord c g zone name rt = (tr, .ok ex) →
    validate (applyDelta ex updates) = .ok rv →
    g.run (sockArgs c ++ [lit "zone-begin", normalizeZoneName zone]) = .ok ob →
    g.run (sockArgs c ++
      [lit "zone-unset", normalizeZoneName zone, toKnotFormat ex]) = .ok ou →
    g.run (sockArgs c ++ setArgsFor (normalizeZoneName zone) rv) = .ok os →
    g.run (sockArgs c ++ [lit "zone-commit", normalizeZoneName zone]) = .ok oc →
    (updateRecord c g zone name rt updates =
      (tr ++ [sockArgs c ++ [lit "zone-begin", normalizeZoneName zone],
              sockArgs c ++ [lit "zone-unset", normalizeZoneName zone,
                toKnotFormat ex],
              sockArgs c ++ setArgsFor (normalizeZoneName zone) rv,
              sockArgs c ++ [lit "zone-commit", normalizeZoneName zone]],
       .ok ()) ∧
     rv.name = ex.name ∧ rv.rtype = ex.rtype) := by
  intro c g zone name rt updates ex rv tr ob ou os oc hallow hget hval hbegin
    hunset hset hcommit
  refine ⟨updateRecord_allok c g zone name rt updates ex rv tr ob ou os oc
    hallow hget hval hbegin hunset hset hcommit, ?_, ?_⟩
  · rw [(validate_name_rtype _ _ hval).1, (applyDelta_name_rtype ex updates).1]
  · rw [(validate_name_rtype _ _ hval).2, (applyDelta_name_rtype ex updates).2]

/-- Witness for the amended C4 at the TTL-renormalizing run. -/
theorem updateRecord_exact_unset_c4_witness :
    updateRecord ⟨none, []⟩
      ⟨fun cmd => if cmd.head? = some (lit "zone-read") then
          .ok (lit "w 0 CNAME x.com.") else .ok []⟩
      (lit "example.com") (lit "w") (lit "CNAME")
      ⟨none, some (lit "y.com."), none⟩ =
      ([[lit "zone-read", lit "example.com."],
        [lit "zone-begin", lit "example.com."],
        [lit "zone-unset", lit "example.com.", lit "w 0 CNAME x.com."],
        [lit "zone-set", lit "example.com.", lit "w", lit "300", lit "CNAME",
         lit "y.com."],
        [lit "zone-commit", lit "example.com."]],
       .ok ()) ∧
    (⟨lit "w", lit "CNAME", 300, lit "y.com.", none⟩ : DNSRecord).name =
      (⟨lit "w", lit "CNAME", 0, lit "x.com.", none⟩ : DNSRecord).name ∧
    (⟨lit "w", lit "CNAME", 300, lit "y.com.", none⟩ : DNSRecord).rtype =
      (⟨lit "w", lit "CNAME", 0, lit "x.com.", none⟩ : DNSRecord).rtype := by
  have h := updateRecord_exact_unset_c4 ⟨none, []⟩
    ⟨fun cmd => if cmd.head? = some (lit "zone-read") then
        .ok (lit "w 0 CNAME x.com.") else .ok []⟩
    (lit "example.com") (lit "w") (lit "CNAME")
    ⟨none, some (lit "y.com."), none⟩
    ⟨lit "w", lit "CNAME", 0, lit "x.com.", none⟩
    ⟨lit "w", lit "CNAME", 300, lit "y.com.", none⟩
    [[lit "zone-read", lit "example.com."]]
    [] [] [] []
    (by rfl) (by rfl) (by rfl) (by rfl) (by rfl) (by rfl) (by rfl)
  exact h

/-! ## MX parsing (C7) -/

theorem parseKnotRecord_mx_short (line : Chars)
    (h4 : ¬ (fields line).length < 4)
    (hm : (fields line).getD 2 [] = lit "MX")
    (h5 : (fields line).length < 5) :
    ∃ e, parseKnotRecord line = .error e := by
  cases h : parseUint ((fields line).getD 1 []) 32 with
  | none =>
    simp only [parseKnotRecord, if_neg h4, h]
    exact ⟨_, rfl⟩
  | some t =>
    simp only [parseKnotRecord, if_neg h4, h, if_pos hm, if_pos h5]
    exact ⟨_, rfl⟩

theorem parseKnotRecord_mx_badprio (line : Chars)
    (h4 : ¬ (fields line).length < 4)
    (hm : (fields line).getD 2 [] = lit "MX")
    (h5 : ¬ (fields line).length < 5)
    (hp : parseUint ((fields line).getD 3 []) 16 = none) :
    ∃ e, parseKnotRecord line = .error e := by
  cases h : parseUint ((fields line).getD 1 []) 32 with
  | none =>
    simp only [parseKnotRecord, if_neg h4, h]
    exact ⟨_, rfl⟩
  | some t =>
    simp only [parseKnotRecord, if_neg h4, h, if_pos hm, if_neg h5, hp]
    exact ⟨_, rfl⟩

theorem parseKnotRecord_ok_mx (line : Chars) (r : DNSRecord)
    (hp : parseKnotRecord line = .ok r) (hmx : r.rtype = lit "MX") :
    r.data = (fields line).getD 4 [] ∧
    ∃ p, r.priority = some p ∧
      parseUint ((fields line).getD 3 []) 16 = some p := by
  simp only [parseKnotRecord] at hp
  split at hp
  · simp at hp
  · split at hp
    · simp at hp
    · rename_i t heq
      split at hp
      · split at hp
        · simp at hp
        · split at hp
          · simp at hp
          · rename_i p hpeq
            simp only [Except.ok.injEq] at hp
            subst hp
            exact ⟨rfl, p, rfl, hpeq⟩
      · rename_i hne
        simp only [Except.ok.injEq] at hp
        subst hp
        exact absurd hmx hne

theorem parseKnotRecordB_mx_badprio (line : Chars)
    (h4 : ¬ (fields (preprocB line)).length < 4)
    (hm : (typeDataStartB (fields (preprocB line))).1 = lit "MX")
    (hbad : (fields (preprocB line)).length <
        (typeDataStartB (fields (preprocB line))).2 + 2 ∨
      parseUint ((fields (preprocB line)).getD
        (typeDataStartB (fields (preprocB line))).2 []) 16 = none) :
    ∃ e, parseKnotRecordB line = .error e := by
  cases h : parseUint ((fields (preprocB line)).getD 1 []) 32 with
  | none =>
    simp only [parseKnotRecordB, if_neg h4, h]
    exact ⟨_, rfl⟩
  | some t =>
    rcases hbad with hb | hb
    · simp only [parseKnotRecordB, if_neg h4, h, if_pos hm, if_pos hb]
      exact ⟨_, rfl⟩
    · by_cases hlen : (fields (preprocB line)).length <
          (typeDataStartB (fields (preprocB line))).2 + 2
      · simp only [parseKnotRecordB, if_neg h4, h, if_pos hm, if_pos hlen]
        exact ⟨_, rfl⟩
      · simp only [parseKnotRecordB, if_neg h4, h, if_pos hm, if_neg hlen, hb]
        exact ⟨_, rfl⟩

theorem parseKnotRecordB_ok_mx (line : Chars) (r : DNSRecord)
    (hp : parseKnotRecordB line = .ok r) (hmx : r.rtype = lit "MX") :
    r.data = joinSp ((fields (preprocB line)).drop
      ((typeDataStartB (fields (preprocB line))).2 + 1)) := by
  simp only [parseKnotRecordB] at hp
  split at hp
  · simp at hp
  · split at hp
    · simp at hp
    · rename_i t heq
      split at hp
      · split at hp
        · simp at hp
        · split at hp
          · simp at hp
          · rename_i p hpeq
            simp only [Except.ok.injEq] at hp
            subst hp
            rfl
      · rename_i hne
        split at hp <;>
          first
            | (simp only [Except.ok.injEq] at hp
               subst hp
               exact absurd hmx hne)

/-- C7 counterexample: `ParseKnotRecord` in `types.go` accepts the line
`mail.example.com. 300 MX 10 mx1.example.com. extra` with data consisting
of the single token after the priority, not the space-join of all remaining
tokens — the token `extra` is silently dropped. -/
theorem mx_data_single_token_c7_counterexample :
    parseKnotRecord (lit "mail.example.com. 300 MX 10 mx1.example.com. extra") =
      .ok ⟨lit "mail.example.com.", lit "MX", 300, lit "mx1.example.com.",
        some 10⟩ ∧
    ¬ (⟨lit "mail.example.com.", lit "MX", 300, lit "mx1.example.com.",
        some 10⟩ : DNSRecord).data =
      joinSp ((fields
        (lit "mail.example.com. 300 MX 10 mx1.example.com. extra")).drop 4) :=
  ⟨rfl, by decide⟩

/-- C7, amended: both copies fail with a ParseError when an MX line's
priority token is missing or non-numeric; on success the `types.go` copy
takes as data exactly the single token after the priority (tokens beyond it
are dropped), while the `part_001` copy joins all remaining tokens; for
non-MX types the `types.go` copy joins all tokens after the type. -/
theorem mx_parse_c7_amended :
    (∀ line : Chars, ¬ (fields line).length < 4 →
      (fields line).getD 2 [] = lit "MX" → (fields line).length < 5 →
      ∃ e, parseKnotRecord line = .error e) ∧
    (∀ line : Chars, ¬ (fields line).length < 4 →
      (fields line).getD 2 [] = lit "MX" → ¬ (fields line).length < 5 →
      parseUint ((fields line).getD 3 []) 16 = none →
      ∃ e, parseKnotRecord line = .error e) ∧
    (∀ (line : Chars) (r : DNSRecord), parseKnotRecord line = .ok r →
      r.rtype = lit "MX" → r.data = (fields line).getD 4 []) ∧
    (∀ (line : Chars) (r : DNSRecord), parseKnotRecord line = .ok r →
      r.rtype ≠ lit "MX" → r.data = joinSp ((fields line).drop 3)) ∧
    (∀ line : Chars, ¬ (fields (preprocB line)).length < 4 →
      (typeDataStartB (fields (preprocB line))).1 = lit "MX" →
      ((fields (preprocB line)).length <
          (typeDataStartB (fields (preprocB line))).2 + 2 ∨
        parseUint ((fields (preprocB line)).getD
          (typeDataStartB (fields (preprocB line))).2 []) 16 = none) →
      ∃ e, parseKnotRecordB line = .error e) ∧
    (∀ (line : Chars) (r : DNSRecord), parseKnotRecordB line = .ok r →
      r.rtype = lit "MX" →
      r.data = joinSp ((fields (preprocB line)).drop
        ((typeDataStartB (fields (preprocB line))).2 + 1))) := by
  refine ⟨?_, ?_, ?_, ?_, ?_, ?_⟩
  · exact parseKnotRecord_mx_short
  · exact parseKnotRecord_mx_badprio
  · intro line r hp hmx
    exact (parseKnotRecord_ok_mx line r hp hmx).1
  · intro line r hp hmx
    exact congrArg DNSRecord.data (parseKnotRecord_ok_nonMX line r hp hmx).2.2.2
  · exact parseKnotRecordB_mx_badprio
  · exact parseKnotRecordB_ok_mx

/-- Witness for the amended C7 at the multi-token MX line. -/
theorem mx_parse_c7_amended_witness :
    (⟨lit "mail.example.com.", lit "MX", 300, lit "mx1.example.com.",
      some 10⟩ : DNSRecord).data =
    (fields
      (lit "mail.example.com. 300 MX 10 mx1.example.com. extra")).getD 4 [] :=
  mx_parse_c7_amended.2.2.1
    (lit "mail.example.com. 300 MX 10 mx1.example.com. extra")
    ⟨lit "mail.example.com.", lit "MX", 300, lit "mx1.example.com.", some 10⟩
    (by rfl) (by rfl)

/-! ## The two codec copies (C9) -/

theorem fieldsAux_all_space (sp : Chars) (hsp : ∀ c ∈ sp, isSpace c = true) :
    ∀ acc : Chars, fieldsAux sp acc = fieldsAux [] acc := by
  induction sp with
  | nil => intro acc; rfl
  | cons s sp ih =>
    intro acc
    have hs : isSpace s = true := hsp s (List.mem_cons_self ..)
    rw [fieldsAux_space s sp acc hs]
    have ih' := ih (fun c hc => hsp c (List.mem_cons_of_mem _ hc))
    by_cases ha : acc.isEmpty
    · rw [if_pos ha, ih' []]
      simp [fieldsAux, ha]
    · rw [if_neg ha, ih' []]
      simp [fieldsAux, ha]

theorem fieldsAux_append_space (cs sp : Chars)
    (hsp : ∀ c ∈ sp, isSpace c = true) :
    ∀ acc : Chars, fieldsAux (cs ++ sp) acc = fieldsAux cs acc := by
  induction cs with
  | nil =>
    intro acc
    exact fieldsAux_all_space sp hsp acc
  | cons c cs ih =>
    intro acc
    by_cases hc : isSpace c = true
    · rw [List.cons_append, fieldsAux_space c _ acc hc,
        fieldsAux_space c cs acc hc]
      by_cases ha : acc.isEmpty <;> simp [ha, ih]
    · rw [List.cons_append, fieldsAux_notSpace c _ acc (by simpa using hc),
        fieldsAux_notSpace c cs acc (by simpa using hc), ih]

theorem fields_dropWhile_space (cs : Chars) :
    fields (cs.dropWhile isSpace) = fields cs := by
  induction cs with
  | nil => rfl
  | cons c cs ih =>
    by_cases hc : isSpace c = true
    · rw [List.dropWhile_cons, if_pos hc, ih]
      show fields cs = fieldsAux (c :: cs) []
      rw [fieldsAux_space c cs [] hc]
      rfl
    · rw [List.dropWhile_cons, if_neg hc]

theorem trimSpace_decomp (cs : Chars) :
    ∃ sp : Chars, (∀ c ∈ sp, isSpace c = true) ∧
      cs.dropWhile isSpace = trimSpace cs ++ sp := by
  refine ⟨((cs.dropWhile isSpace).reverse.takeWhile isSpace).reverse, ?_, ?_⟩
  · intro c hc
    rw [List.mem_reverse] at hc
    exact List.mem_takeWhile_imp hc
  · show cs.dropWhile isSpace =
      ((cs.dropWhile isSpace).reverse.dropWhile isSpace).reverse ++
      ((cs.dropWhile isSpace).reverse.takeWhile isSpace).reverse
    calc cs.dropWhile isSpace
        = ((cs.dropWhile isSpace).reverse).reverse :=
          (List.reverse_reverse _).symm
      _ = ((cs.dropWhile isSpace).reverse.takeWhile isSpace ++
            (cs.dropWhile isSpace).reverse.dropWhile isSpace).reverse := by
          rw [List.takeWhile_append_dropWhile]
      _ = ((cs.dropWhile isSpace).reverse.dropWhile isSpace).reverse ++
          ((cs.dropWhile isSpace).reverse.takeWhile isSpace).reverse :=
          List.reverse_append _ _

theorem fields_trimSpace (cs : Chars) : fields (trimSpace cs) = fields cs := by
  obtain ⟨sp, hsp, hdec⟩ := trimSpace_decomp cs
  have h1 : fields (cs.dropWhile isSpace) = fields cs :=
    fields_dropWhile_space cs
  rw [← h1, hdec]
  exact (fieldsAux_append_space (trimSpace cs) sp hsp []).symm

theorem preprocB_no_bracket (line : Chars)
    (h : ¬ ((trimSpace line).head? = some '[' ∧
      (trimSpace line).contains ']' = true)) :
    preprocB line = trimSpace line := by
  simp only [preprocB]
  rw [if_neg h]

theorem parsers_agree_clean (line : Chars)
    (hb : ¬ ((trimSpace line).head? = some '[' ∧
      (trimSpace line).contains ']' = true))
    (hc : ¬ (5 ≤ (fields line).length ∧ (fields line).getD 2 [] ∈ classTokens))
    (hm : ¬ (fields line).getD 2 [] = lit "MX") :
    agreeResult (parseKnotRecord line) (parseKnotRecordB line) := by
  have hfl : fields (preprocB line) = fields line := by
    rw [preprocB_no_bracket line hb, fields_trimSpace]
  have htd : typeDataStartB (fields line) = ((fields line).getD 2 [], 3) := by
    unfold typeDataStartB
    rw [if_neg hc]
  by_cases h4 : (fields line).length < 4
  · refine Or.inr ⟨?_, ?_⟩
    · simp only [parseKnotRecord, if_pos h4]
      exact ⟨_, rfl⟩
    · simp only [parseKnotRecordB, hfl, if_pos h4]
      exact ⟨_, rfl⟩
  · cases ht : parseUint ((fields line).getD 1 []) 32 with
    | none =>
      refine Or.inr ⟨?_, ?_⟩
      · simp only [parseKnotRecord, if_neg h4, ht]
        exact ⟨_, rfl⟩
      · simp only [parseKnotRecordB, hfl, if_neg h4, ht]
        exact ⟨_, rfl⟩
    | some t =>
      refine Or.inl ⟨⟨(fields line).getD 0 [], (fields line).getD 2 [], t,
        joinSp ((fields line).drop 3), none⟩,
        parseKnotRecord_eval line t h4 ht hm, ?_⟩
      simp only [parseKnotRecordB, hfl, htd, if_neg h4, ht, if_neg hm,
        if_pos (show 3 < (fields line).length by omega)]

theorem toKnotFormat_shape (r : DNSRecord) :
    ∃ rest : List Chars, rest ≠ [] ∧
      toKnotFormat r = joinSp (r.name :: toDec r.ttl :: rest) ∧
      toKnotFormatB r = joinSp (r.name :: toDec r.ttl :: lit "IN" :: rest) := by
  unfold toKnotFormat toKnotFormatB
  by_cases hmx : r.rtype = lit "MX"
  · cases hp : r.priority with
    | some p =>
      exact ⟨[r.rtype, toDec p, r.data], by simp, by simp [hp, if_pos hmx],
        by simp [hp, if_pos hmx]⟩
    | none =>
      exact ⟨[r.rtype, r.data], by simp, by simp [hp, if_pos hmx],
        by simp [hp, if_pos hmx]⟩
  · exact ⟨[r.rtype, r.data], by simp, by simp [if_neg hmx],
      by simp [if_neg hmx]⟩

theorem formats_differ (r : DNSRecord) : toKnotFormat r ≠ toKnotFormatB r := by
  obtain ⟨rest, hne, h1, h2⟩ := toKnotFormat_shape r
  intro heq
  rw [h1, h2] at heq
  have hl := congrArg List.length heq
  rw [joinSp_cons r.name (toDec r.ttl :: rest) (by simp),
    joinSp_cons (toDec r.ttl) rest hne,
    joinSp_cons r.name (toDec r.ttl :: lit "IN" :: rest) (by simp),
    joinSp_cons (toDec r.ttl) (lit "IN" :: rest) (by simp),
    joinSp_cons (lit "IN") rest hne] at hl
  simp [List.length_append] at hl
  rw [show (lit "IN").length = 2 from rfl] at hl
  omega

/-- C9 counterexample: the two `ParseKnotRecord` copies disagree on the
class-token line `www 300 IN A 192.0.2.1` (the `types.go` copy reads type
`IN`, the `part_001` copy skips the class token and reads type `A`), and the
two `ToKnotFormat` copies disagree on the resulting record. -/
theorem codec_copies_differ_c9_counterexample :
    parseKnotRecord (lit "www 300 IN A 192.0.2.1") =
      .ok ⟨lit "www", lit "IN", 300, lit "A 192.0.2.1", none⟩ ∧
    parseKnotRecordB (lit "www 300 IN A 192.0.2.1") =
      .ok ⟨lit "www", lit "A", 300, lit "192.0.2.1", none⟩ ∧
    (⟨lit "www", lit "IN", 300, lit "A 192.0.2.1", none⟩ : DNSRecord) ≠
      ⟨lit "www", lit "A", 300, lit "192.0.2.1", none⟩ ∧
    toKnotFormat ⟨lit "www", lit "A", 300, lit "192.0.2.1", none⟩ ≠
      toKnotFormatB ⟨lit "www", lit "A", 300, lit "192.0.2.1", none⟩ :=
  ⟨rfl, rfl, by decide, by decide⟩

/-- C9, amended: the two codec copies are not equivalent.  The parsers
agree (same record, or both errors) on every line without a bracketed zone
prefix whose third token is not a recognized class token and is not `MX`;
the formatters differ on every record, because the `part_001` copy inserts
the class token `IN` after the TTL. -/
theorem codec_copies_c9_amended :
    (∀ line : Chars,
      ¬ ((trimSpace line).head? = some '[' ∧
        (trimSpace line).contains ']' = true) →
      ¬ (5 ≤ (fields line).length ∧
        (fields line).getD 2 [] ∈ classTokens) →
      ¬ (fields line).getD 2 [] = lit "MX" →
      agreeResult (parseKnotRecord line) (parseKnotRecordB line)) ∧
    (∀ r : DNSRecord, toKnotFormat r ≠ toKnotFormatB r) :=
  ⟨parsers_agree_clean, formats_differ⟩

/-- Witness for the amended C9 at a clean line. -/
theorem codec_copies_c9_amended_witness :
    agreeResult (parseKnotRecord (lit "www 300 A 192.0.2.1"))
      (parseKnotRecordB (lit "www 300 A 192.0.2.1")) :=
  codec_copies_c9_amended.1 (lit "www 300 A 192.0.2.1")
    (by decide) (by decide) (by decide)

end HyprKnot
